import Mathlib

/-!
Verification of the FMM (fast marching method) header library.

The development shallowly embeds the algorithmic core of `fmm.hpp`
(the revision with the `max_visits` parameter) over exact rationals:

* machine floats become `ℚ`; the `std::numeric_limits<T>::max()` sentinel
  becomes the fixed huge constant `INF`;
* `std::sqrt` becomes `ratSqrt`, which is exact on perfect squares of
  rationals (every concrete run evaluated below only takes square roots of
  perfect squares, so the traces agree with ideal real arithmetic);
* the raw `T*` distance buffer and the `std::vector<char>` status buffer
  become total functions `Int → ℚ` / `Int → ℕ` so that the unchecked
  indexing of the C++ is representable (reads and writes at any integer);
* the `std::priority_queue` becomes a list with a deterministic
  extract-min (`popMin`); the source comparator leaves ties unspecified,
  and every concrete run below has pairwise distinct keys.
-/

namespace FMM

/-- `std::numeric_limits<T>::max()`, the "infinite" sentinel of the source. -/
def INF : ℚ := 10 ^ 20

/-- Square root on `ℚ`, exact on perfect squares (numerator and denominator
both squares); stands in for `std::sqrt`, which the source only applies to a
nonnegative discriminant. -/
def ratSqrt (q : ℚ) : ℚ := (Nat.sqrt q.num.toNat : ℚ) / (Nat.sqrt q.den : ℚ)

/-- `__queue_cell<T>`: flat index, cached column, queue key. -/
structure QueueCell where
  id : Int
  x : Int
  dist : ℚ
deriving DecidableEq

/-- `__CELL_VISITED = char(255)` (the Known state). -/
def CELL_VISITED : ℕ := 255

/-- `__CELL_NOT_VISITED = char(0)` (the Far state). -/
def CELL_NOT_VISITED : ℕ := 0

/-- The inputs the propagation loop reads: grid shape, the processed weight
field (`image_data`), and the segmentation threshold. -/
structure FmmParams where
  rows : Int
  cols : Int
  cost : Int → ℚ
  tau : ℚ

/-- The mutable state of one `fmm` invocation: the distance buffer, the
status buffer, the priority queue, the remaining visit budget, and a ghost
trace recording `(pop key, recorded distance)` for each finalization. -/
structure FmmState where
  dist : Int → ℚ
  status : Int → ℕ
  que : List QueueCell
  budget : Int
  trace : List (ℚ × ℚ)

/-- Extract-min on the queue: returns the first entry of minimal key and the
remaining entries.  (`std::priority_queue` with `a.dist > b.dist`.) -/
def popMin : List QueueCell → Option (QueueCell × List QueueCell)
  | [] => none
  | c :: cs =>
    match popMin cs with
    | none => some (c, [])
    | some (m, rest) => if c.dist ≤ m.dist then some (c, cs) else some (m, c :: rest)

/-- `__eikonal_update`: the two-axis quadratic solution with the one-axis
upwind fallback, exactly as in the source. -/
def eikonalEstimate (dleft dright dup ddown cell_val : ℚ) : ℚ :=
  let dhoriz := min dleft dright
  let dvert := min dup ddown
  let det := 2 * dvert * dhoriz - dvert * dvert - dhoriz * dhoriz + 2 * cell_val * cell_val
  if det ≥ 0 then (1 / 2) * (dhoriz + dvert + ratSqrt det)
  else min dhoriz dvert + cell_val

/-- `__update_cell`: skip a Known cell; recompute the eikonal estimate from
the four neighbor distances (sentinel when out of bounds); on improvement
write the distance, and push a fresh queue entry only when the cell was Far
(`__CELL_NOT_VISITED`), also promoting it to Trial. -/
def updateCell (p : FmmParams) (u : QueueCell) (s : FmmState) : FmmState :=
  let area := p.cols * p.rows
  if s.status u.id = CELL_VISITED then s
  else
    let dleft := if u.x > 0 then s.dist (u.id - 1) else INF
    let dright := if u.x + 1 < p.cols then s.dist (u.id + 1) else INF
    let dup := if u.id - p.cols ≥ 0 then s.dist (u.id - p.cols) else INF
    let ddown := if u.id + p.cols < area then s.dist (u.id + p.cols) else INF
    let estimate := eikonalEstimate dleft dright dup ddown (p.cost u.id)
    if estimate < s.dist u.id then
      if s.status u.id = CELL_NOT_VISITED then
        { s with dist := Function.update s.dist u.id estimate
                 que := ⟨u.id, u.x, estimate⟩ :: s.que
                 status := Function.update s.status u.id 1 }
      else
        { s with dist := Function.update s.dist u.id estimate }
    else s

/-- One body of the propagation loop, after the `!que.empty() && max_visits--`
guard: pop the minimum, lazily drop it when already Known or beyond the raw
segmentation threshold, otherwise mark Known (recording the pop on the ghost
trace) and update the four in-bounds neighbors in source order. -/
def fmmIter (p : FmmParams) (s : FmmState) : FmmState :=
  match popMin s.que with
  | none => s
  | some (u, rest) =>
    let s1 : FmmState := { s with que := rest }
    if s1.status u.id = CELL_VISITED ∨ s1.dist u.id > p.tau then s1
    else
      let s2 : FmmState :=
        { s1 with status := Function.update s1.status u.id CELL_VISITED
                  trace := s1.trace ++ [(u.dist, s1.dist u.id)] }
      let s3 := if u.x - 1 ≥ 0 then updateCell p ⟨u.id - 1, u.x - 1, u.dist⟩ s2 else s2
      let s4 := if u.x + 1 < p.cols then updateCell p ⟨u.id + 1, u.x + 1, u.dist⟩ s3 else s3
      let s5 := if u.id - p.cols ≥ 0 then updateCell p ⟨u.id - p.cols, u.x, u.dist⟩ s4 else s4
      let s6 := if u.id + p.cols < p.cols * p.rows then updateCell p ⟨u.id + p.cols, u.x, u.dist⟩ s5 else s5
      s6

/-- One evaluation of `while (!que.empty() && max_visits--)` plus its body:
stop on an empty queue; stop when the budget is exactly zero (the final
decrement of the dead local is unobservable and omitted); otherwise consume
one unit of budget and run the body.  The budget is consumed by every pop
attempt, finalizing or not. -/
def fmmStep (p : FmmParams) (s : FmmState) : FmmState :=
  if s.que = [] then s
  else if s.budget = 0 then s
  else fmmIter p { s with budget := s.budget - 1 }

/-- Iterate the loop `n` times (states are fixed points of `fmmStep` once the
loop has exited, so any sufficiently large fuel yields the final state). -/
def fmmLoop (p : FmmParams) : ℕ → FmmState → FmmState
  | 0, s => s
  | n + 1, s => fmmLoop p n (fmmStep p s)

/-- One iteration of the seed loop: push `(x + y*cols, x, 0)` and write
`dist[id] = 0` — with no bounds check, as in the source. -/
def seedPush (p : FmmParams) (s : FmmState) (sd : Int × Int) : FmmState :=
  let id := sd.1 + sd.2 * p.cols
  { s with que := ⟨id, sd.1, 0⟩ :: s.que
           dist := Function.update s.dist id 0 }

/-- The state just before the loop: distances filled with the sentinel,
statuses Far, then the seed loop. -/
def initState (p : FmmParams) (seeds : List (Int × Int)) (maxVisits : Int) : FmmState :=
  seeds.foldl (seedPush p)
    { dist := fun _ => INF, status := fun _ => 0, que := [], budget := maxVisits, trace := [] }

/-- Raw-memory read of a row-major buffer: in-range indices read the list,
out-of-range indices read an unspecified resident value, modeled as `0`. -/
def readMem : List ℚ → Int → ℚ
  | [], _ => 0
  | a :: as, i => if i = 0 then a else if i < 0 then 0 else readMem as (i - 1)

/-- One cell of `weight::gradient_weights` from the `max_visits` revision
(coefficients 3 / 10 / 3): sum of the guarded stencil contributions in
source order (`+=` accumulation flattened into one sum), then
`sqrt(sobelx² + sobely²)`. -/
def gradientCell (cols area : Int) (d : Int → ℚ) (idx : Int) : ℚ :=
  let j := idx % cols
  let sobelx :=
    (if j > 0 ∧ idx - cols ≥ 0 then -3 * d (idx - cols - 1) else 0) +
    (if j > 0 then -10 * d (idx - 1) else 0) +
    (if j > 0 ∧ idx + cols < area then -3 * d (idx + cols - 1) else 0) +
    (if j + 1 < cols ∧ idx - cols ≥ 0 then 3 * d (idx - cols + 1) else 0) +
    (if j + 1 < cols then 10 * d (idx + 1) else 0) +
    (if j + 1 < cols ∧ idx + cols < area then 3 * d (idx + cols + 1) else 0)
  let sobely :=
    (if j > 0 ∧ idx - cols ≥ 0 then -3 * d (idx - cols - 1) else 0) +
    (if j > 0 ∧ idx + cols < area then 3 * d (idx + cols - 1) else 0) +
    (if j + 1 < cols ∧ idx - cols ≥ 0 then -3 * d (idx - cols + 1) else 0) +
    (if j + 1 < cols ∧ idx + cols < area then 3 * d (idx + cols + 1) else 0) +
    (if idx - cols ≥ 0 then -10 * d (idx - cols) else 0) +
    (if idx + cols < area then 10 * d (idx + cols) else 0)
  ratSqrt (sobelx * sobelx + sobely * sobely)

/-- `weight::gradient_weights` of the `max_visits` revision (the `idx` loop
walks the flat buffer with `j` cycling through columns, so `j = idx % cols`);
the `normalize_output` branch is omitted because `fmm` always passes
`false`. -/
def gradient_weights (rows cols : Int) (img : List ℚ) : List ℚ :=
  (List.range (rows * cols).toNat).map fun n =>
    gradientCell cols (rows * cols) (readMem img) (n : Int)

/-- One cell of the older revision's `weight::gradient_weights`
(coefficients 1 / 2 / 1).  Its right-column guard reads
`if (j + 1 > image.cols)` in the source — embedded verbatim. -/
def gradientCellOld (cols area : Int) (d : Int → ℚ) (idx : Int) : ℚ :=
  let j := idx % cols
  let sobelx :=
    (if j > 0 ∧ idx - cols ≥ 0 then -1 * d (idx - cols - 1) else 0) +
    (if j > 0 then -2 * d (idx - 1) else 0) +
    (if j > 0 ∧ idx + cols < area then -1 * d (idx + cols - 1) else 0) +
    (if j + 1 > cols ∧ idx - cols ≥ 0 then d (idx - cols + 1) else 0) +
    (if j + 1 > cols then 2 * d (idx + 1) else 0) +
    (if j + 1 > cols ∧ idx + cols < area then d (idx + cols + 1) else 0)
  let sobely :=
    (if j > 0 ∧ idx - cols ≥ 0 then -1 * d (idx - cols - 1) else 0) +
    (if j > 0 ∧ idx + cols < area then d (idx + cols - 1) else 0) +
    (if j + 1 > cols ∧ idx - cols ≥ 0 then -1 * d (idx - cols + 1) else 0) +
    (if j + 1 > cols ∧ idx + cols < area then d (idx + cols + 1) else 0) +
    (if idx - cols ≥ 0 then -2 * d (idx - cols) else 0) +
    (if idx + cols < area then 2 * d (idx + cols) else 0)
  ratSqrt (sobelx * sobelx + sobely * sobely)

/-- The older revision's `weight::gradient_weights` (`fmm.hpp` without
`max_visits`). -/
def gradient_weights_old (rows cols : Int) (img : List ℚ) : List ℚ :=
  (List.range (rows * cols).toNat).map fun n =>
    gradientCellOld cols (rows * cols) (readMem img) (n : Int)

/-- `weight::laplacian_weights`: center weight −4, each existing 4-neighbor
+1, then the sign flip `if (out < 0) out = -out`. -/
def laplacian_weights (rows cols : Int) (img : List ℚ) : List ℚ :=
  (List.range (rows * cols).toNat).map fun n =>
    let idx : Int := (n : Int)
    let j := idx % cols
    let d := readMem img
    let out :=
      -4 * d idx +
      (if idx - cols ≥ 0 then d (idx - cols) else 0) +
      (if idx + cols < rows * cols then d (idx + cols) else 0) +
      (if j > 0 then d (idx - 1) else 0) +
      (if j + 1 < cols then d (idx + 1) else 0)
    if out < 0 then -out else out

/-- `weight::difference_weights`: reference value is the mean of the input at
the seed coordinates, output is the absolute difference from it.  (For an
empty seed list the source divides by zero; over `ℚ` that division yields
`0`.) -/
def difference_weights (rows cols : Int) (img : List ℚ) (seeds : List (Int × Int)) : List ℚ :=
  let ref :=
    (seeds.foldl (fun a sd => a + readMem img (sd.1 + sd.2 * cols)) 0) / (seeds.length : ℚ)
  (List.range (rows * cols).toNat).map fun n =>
    let v := readMem img (n : Int) - ref
    if v < 0 then -v else v

/-- `weight::WeightMap` (the `_WEIGHT_MAP_COUNT` pseudo-value and any other
unrecognized selector fall into the `default:` identity branch). -/
inductive WeightMap
  | identity
  | gradient
  | absdiff
  | laplacian
deriving DecidableEq

/-- The `switch (weight_map_type)` at the top of `fmm`. -/
def buildWeights : WeightMap → Int → Int → List ℚ → List (Int × Int) → List ℚ
  | .identity, _, _, img, _ => img
  | .gradient, r, c, img, _ => gradient_weights r c img
  | .absdiff, r, c, img, seeds => difference_weights r c img seeds
  | .laplacian, r, c, img, _ => laplacian_weights r c img

/-- The state after the propagation loop of `fmm` has terminated.  The fuel
`seeds.length + area + 1` dominates the total number of queue pushes (each
seed pushes once; an update pushes only on a Far→Trial transition), hence
the number of loop iterations. -/
def fmmRunState (rows cols : Int) (image : List ℚ) (seeds : List (Int × Int))
    (wm : WeightMap) (tau : ℚ) (maxVisits : Int) : FmmState :=
  let cost := buildWeights wm rows cols image seeds
  let p : FmmParams := { rows := rows, cols := cols, cost := readMem cost, tau := tau }
  fmmLoop p (seeds.length + (rows * cols).toNat + 1) (initState p seeds maxVisits)

/-- Read the in-bounds part of the distance buffer back out as an image. -/
def fmmGrid (s : FmmState) (area : ℕ) : List ℚ :=
  (List.range area).map fun i => s.dist (i : Int)

/-- `*std::max_element(dist, dist + area)` (the head seed ensures the fold
starts inside the list; on the empty list the source dereferences `end`). -/
def maxvalOf (l : List ℚ) : ℚ := l.foldl max (l.headD 0)

/-- The normalization pass: `dist[i] /= maxval` for every cell, with no
branch for a zero or sentinel maximum. -/
def normalizeStep (l : List ℚ) : List ℚ := l.map fun d => d / maxvalOf l

/-- The binarization pass: `dist[i] = T(dist[i] <= segmentation_threshold)`. -/
def thresholdStep (tau : ℚ) (l : List ℚ) : List ℚ :=
  l.map fun d => if d ≤ tau then 1 else 0

/-- The public entry point `fmm::fmm`: build the weight field, run the
propagation loop, then optionally normalize, then (when the threshold is
below the sentinel) binarize. -/
def fmm (rows cols : Int) (image : List ℚ) (seeds : List (Int × Int))
    (wm : WeightMap) (segmentation_threshold : ℚ) (normalize_output : Bool)
    (maxVisits : Int) : List ℚ :=
  let s := fmmRunState rows cols image seeds wm segmentation_threshold maxVisits
  let g := fmmGrid s (rows * cols).toNat
  let g2 := if normalize_output then normalizeStep g else g
  if segmentation_threshold < INF then thresholdStep segmentation_threshold g2 else g2


/-! ### Derived predicates used by the verification -/

/-- The Eikonal update exactly as the specification words it. -/
def eikonalSpecification (dleft dright dup ddown c : ℚ) : ℚ :=
  let dhoriz := min dleft dright
  let dvert := min dup ddown
  let det := 2 * dvert * dhoriz - dvert ^ 2 - dhoriz ^ 2 + 2 * c ^ 2
  if det ≥ 0 then (1/2) * (dhoriz + dvert + ratSqrt det)
  else min dhoriz dvert + c

/-- Rank of a cell status in the Far → Trial → Known lifecycle. -/
def statusRank (st : ℕ) : ℕ := if st = CELL_VISITED then 2 else if st = 1 then 1 else 0

/-- One state evolves from another moving statuses only forward, freezing
the distance of every Known cell. -/
def Progress (s t : FmmState) : Prop :=
  ∀ i : Int, statusRank (s.status i) ≤ statusRank (t.status i) ∧
    (s.status i = CELL_VISITED → t.status i = CELL_VISITED ∧ t.dist i = s.dist i)

/-- Every queue entry's key bounds the entry's cell's current distance from
above (distances only decrease after a push). -/
def KeyBound (s : FmmState) : Prop := ∀ e ∈ s.que, s.dist e.id ≤ e.dist

/-- Every recorded finalization's distance is bounded by its pop key. -/
def TraceBound (s : FmmState) : Prop := ∀ pr ∈ s.trace, pr.2 ≤ pr.1

/-- The queue/trace bounds, packaged. -/
def StateInv (s : FmmState) : Prop := KeyBound s ∧ TraceBound s

/-- A queue cell that records genuine in-bounds grid coordinates: its cached
column is in range and its flat index decomposes as `x + y * cols`. -/
def ConsistentCell (p : FmmParams) (e : QueueCell) : Prop :=
  0 ≤ e.x ∧ e.x < p.cols ∧ ∃ y : Int, 0 ≤ y ∧ y < p.rows ∧ e.id = e.x + y * p.cols

/-- All queue entries carry in-bounds coordinates. -/
def QueueOK (p : FmmParams) (s : FmmState) : Prop := ∀ e ∈ s.que, ConsistentCell p e

/-- Memory outside the grid region `[0, cols*rows)` is untouched. -/
def Confined (p : FmmParams) (s : FmmState) : Prop :=
  ∀ i : Int, i < 0 ∨ p.cols * p.rows ≤ i → s.dist i = INF ∧ s.status i = 0

/-- Combined in-bounds invariant. -/
def MemInv (p : FmmParams) (s : FmmState) : Prop := QueueOK p s ∧ Confined p s

/-! ### Evaluation support

`ratSqrt` agrees with the real square root on every discriminant that the
concrete runs below actually take a square root of (all perfect squares). -/

lemma fmmLoop_succ (p : FmmParams) (n : ℕ) (s : FmmState) :
    fmmLoop p (n + 1) s = fmmLoop p n (fmmStep p s) := rfl

lemma ratSqrt_sq (r q : ℚ) (hr : 0 ≤ r) (h : r * r = q) : ratSqrt q = r := by
  subst h
  have hn : 0 ≤ r.num := Rat.num_nonneg.mpr hr
  unfold ratSqrt
  rw [Rat.mul_self_num, Rat.mul_self_den]
  obtain ⟨n, hn'⟩ := Int.eq_ofNat_of_zero_le hn
  rw [hn']
  have h1 : ((n : Int) * n).toNat = n * n := by
    rw [← Int.natCast_mul, Int.toNat_natCast]
  rw [h1, Nat.sqrt_eq, Nat.sqrt_eq]
  rw [show ((n : ℚ) : ℚ) = ((n : Int) : ℚ) by push_cast; ring]
  rw [← hn']
  exact Rat.num_div_den r

lemma ratSqrt49 : ratSqrt 49 = 7 := ratSqrt_sq 7 49 (by norm_num) (by norm_num)

lemma ratSqrt49Q : ratSqrt (49/4) = 7/2 := ratSqrt_sq (7/2) (49/4) (by norm_num) (by norm_num)

lemma ratSqrt0 : ratSqrt 0 = 0 := ratSqrt_sq 0 0 (by norm_num) (by norm_num)

lemma ratSqrtMillion : ratSqrt 1000000 = 1000 := ratSqrt_sq 1000 1000000 (by norm_num) (by norm_num)

/-! ### Concrete counterexample runs -/

set_option maxHeartbeats 1000000 in
/-- Claim C2, counterexample: on a 1×2 unit-cost grid with the seed listed
twice and `max_visits = 2`, the duplicated seed's second queue entry is a
stale pop that consumes budget without finalizing, so only 1 cell is
finalized although both cells of the grid are reachable (the unlimited run
finalizes 2 cells and gives both a finite distance): 1 ≠ min 2 2.  The
budget is decremented once per pop attempt, not once per finalization. -/
theorem budget_consumed_by_stale_pop :
    (fmmRunState 1 2 [1, 1] [(0, 0), (0, 0)] .identity INF 2).trace.length = 1 ∧
    (fmmRunState 1 2 [1, 1] [(0, 0), (0, 0)] .identity INF (-1)).trace.length = 2 ∧
    (fmmRunState 1 2 [1, 1] [(0, 0), (0, 0)] .identity INF (-1)).dist 0 < INF ∧
    (fmmRunState 1 2 [1, 1] [(0, 0), (0, 0)] .identity INF (-1)).dist 1 < INF ∧
    (1 : ℕ) ≠ min 2 2 := by
  have eB0 : initState (⟨1, 2, readMem [1, 1], INF⟩ : FmmParams) [(0, 0), (0, 0)] (2) =
      ⟨Function.update (Function.update (fun _ => INF) 0 (0)) 0 (0),
      fun _ => 0,
      [⟨0, 0, 0⟩, ⟨0, 0, 0⟩], 2, []⟩ := by
    norm_num [initState, seedPush]
  have eB1 : fmmStep (⟨1, 2, readMem [1, 1], INF⟩ : FmmParams)
      ⟨Function.update (Function.update (fun _ => INF) 0 (0)) 0 (0),
      fun _ => 0,
      [⟨0, 0, 0⟩, ⟨0, 0, 0⟩], 2, []⟩ =
      ⟨Function.update (Function.update (Function.update (fun _ => INF) 0 (0)) 0 (0)) 1 (1),
      Function.update (Function.update (fun _ => 0) 0 255) 1 1,
      [⟨1, 1, 1⟩, ⟨0, 0, 0⟩], 1, [(0, 0)]⟩ := by
    norm_num [fmmStep, fmmIter, updateCell, popMin, eikonalEstimate, readMem, INF,
    CELL_VISITED, CELL_NOT_VISITED, Function.update, max_def, min_def,
    ratSqrt49, ratSqrt49Q, ratSqrt0, List.cons_ne_nil]
  have eB2 : fmmStep (⟨1, 2, readMem [1, 1], INF⟩ : FmmParams)
      ⟨Function.update (Function.update (Function.update (fun _ => INF) 0 (0)) 0 (0)) 1 (1),
      Function.update (Function.update (fun _ => 0) 0 255) 1 1,
      [⟨1, 1, 1⟩, ⟨0, 0, 0⟩], 1, [(0, 0)]⟩ =
      ⟨Function.update (Function.update (Function.update (fun _ => INF) 0 (0)) 0 (0)) 1 (1),
      Function.update (Function.update (fun _ => 0) 0 255) 1 1,
      [⟨1, 1, 1⟩], 0, [(0, 0)]⟩ := by
    norm_num [fmmStep, fmmIter, updateCell, popMin, eikonalEstimate, readMem, INF,
    CELL_VISITED, CELL_NOT_VISITED, Function.update, max_def, min_def,
    ratSqrt49, ratSqrt49Q, ratSqrt0, List.cons_ne_nil]
  have eB3 : fmmStep (⟨1, 2, readMem [1, 1], INF⟩ : FmmParams)
      ⟨Function.update (Function.update (Function.update (fun _ => INF) 0 (0)) 0 (0)) 1 (1),
      Function.update (Function.update (fun _ => 0) 0 255) 1 1,
      [⟨1, 1, 1⟩], 0, [(0, 0)]⟩ =
      ⟨Function.update (Function.update (Function.update (fun _ => INF) 0 (0)) 0 (0)) 1 (1),
      Function.update (Function.update (fun _ => 0) 0 255) 1 1,
      [⟨1, 1, 1⟩], 0, [(0, 0)]⟩ := by
    norm_num [fmmStep, fmmIter, updateCell, popMin, eikonalEstimate, readMem, INF,
    CELL_VISITED, CELL_NOT_VISITED, Function.update, max_def, min_def,
    ratSqrt49, ratSqrt49Q, ratSqrt0, List.cons_ne_nil]
  have eB4 : fmmStep (⟨1, 2, readMem [1, 1], INF⟩ : FmmParams)
      ⟨Function.update (Function.update (Function.update (fun _ => INF) 0 (0)) 0 (0)) 1 (1),
      Function.update (Function.update (fun _ => 0) 0 255) 1 1,
      [⟨1, 1, 1⟩], 0, [(0, 0)]⟩ =
      ⟨Function.update (Function.update (Function.update (fun _ => INF) 0 (0)) 0 (0)) 1 (1),
      Function.update (Function.update (fun _ => 0) 0 255) 1 1,
      [⟨1, 1, 1⟩], 0, [(0, 0)]⟩ := by
    norm_num [fmmStep, fmmIter, updateCell, popMin, eikonalEstimate, readMem, INF,
    CELL_VISITED, CELL_NOT_VISITED, Function.update, max_def, min_def,
    ratSqrt49, ratSqrt49Q, ratSqrt0, List.cons_ne_nil]
  have eB5 : fmmStep (⟨1, 2, readMem [1, 1], INF⟩ : FmmParams)
      ⟨Function.update (Function.update (Function.update (fun _ => INF) 0 (0)) 0 (0)) 1 (1),
      Function.update (Function.update (fun _ => 0) 0 255) 1 1,
      [⟨1, 1, 1⟩], 0, [(0, 0)]⟩ =
      ⟨Function.update (Function.update (Function.update (fun _ => INF) 0 (0)) 0 (0)) 1 (1),
      Function.update (Function.update (fun _ => 0) 0 255) 1 1,
      [⟨1, 1, 1⟩], 0, [(0, 0)]⟩ := by
    norm_num [fmmStep, fmmIter, updateCell, popMin, eikonalEstimate, readMem, INF,
    CELL_VISITED, CELL_NOT_VISITED, Function.update, max_def, min_def,
    ratSqrt49, ratSqrt49Q, ratSqrt0, List.cons_ne_nil]
  have hrunB : fmmRunState 1 2 [1, 1] [(0, 0), (0, 0)] .identity INF (2) =
      ⟨Function.update (Function.update (Function.update (fun _ => INF) 0 (0)) 0 (0)) 1 (1),
      Function.update (Function.update (fun _ => 0) 0 255) 1 1,
      [⟨1, 1, 1⟩], 0, [(0, 0)]⟩ := by
    simp only [fmmRunState, buildWeights,
      show ([(0, 0), (0, 0)] : List (Int × Int)).length + ((1 : Int) * 2).toNat + 1 = 5 from rfl]
    rw [eB0]
    simp only [fmmLoop]
    rw [eB1, eB2, eB3, eB4, eB5]

  have eC0 : initState (⟨1, 2, readMem [1, 1], INF⟩ : FmmParams) [(0, 0), (0, 0)] (-1) =
      ⟨Function.update (Function.update (fun _ => INF) 0 (0)) 0 (0),
      fun _ => 0,
      [⟨0, 0, 0⟩, ⟨0, 0, 0⟩], -1, []⟩ := by
    norm_num [initState, seedPush]
  have eC1 : fmmStep (⟨1, 2, readMem [1, 1], INF⟩ : FmmParams)
      ⟨Function.update (Function.update (fun _ => INF) 0 (0)) 0 (0),
      fun _ => 0,
      [⟨0, 0, 0⟩, ⟨0, 0, 0⟩], -1, []⟩ =
      ⟨Function.update (Function.update (Function.update (fun _ => INF) 0 (0)) 0 (0)) 1 (1),
      Function.update (Function.update (fun _ => 0) 0 255) 1 1,
      [⟨1, 1, 1⟩, ⟨0, 0, 0⟩], -2, [(0, 0)]⟩ := by
    norm_num [fmmStep, fmmIter, updateCell, popMin, eikonalEstimate, readMem, INF,
    CELL_VISITED, CELL_NOT_VISITED, Function.update, max_def, min_def,
    ratSqrt49, ratSqrt49Q, ratSqrt0, List.cons_ne_nil]
  have eC2 : fmmStep (⟨1, 2, readMem [1, 1], INF⟩ : FmmParams)
      ⟨Function.update (Function.update (Function.update (fun _ => INF) 0 (0)) 0 (0)) 1 (1),
      Function.update (Function.update (fun _ => 0) 0 255) 1 1,
      [⟨1, 1, 1⟩, ⟨0, 0, 0⟩], -2, [(0, 0)]⟩ =
      ⟨Function.update (Function.update (Function.update (fun _ => INF) 0 (0)) 0 (0)) 1 (1),
      Function.update (Function.update (fun _ => 0) 0 255) 1 1,
      [⟨1, 1, 1⟩], -3, [(0, 0)]⟩ := by
    norm_num [fmmStep, fmmIter, updateCell, popMin, eikonalEstimate, readMem, INF,
    CELL_VISITED, CELL_NOT_VISITED, Function.update, max_def, min_def,
    ratSqrt49, ratSqrt49Q, ratSqrt0, List.cons_ne_nil]
  have eC3 : fmmStep (⟨1, 2, readMem [1, 1], INF⟩ : FmmParams)
      ⟨Function.update (Function.update (Function.update (fun _ => INF) 0 (0)) 0 (0)) 1 (1),
      Function.update (Function.update (fun _ => 0) 0 255) 1 1,
      [⟨1, 1, 1⟩], -3, [(0, 0)]⟩ =
      ⟨Function.update (Function.update (Function.update (fun _ => INF) 0 (0)) 0 (0)) 1 (1),
      Function.update (Function.update (Function.update (fun _ => 0) 0 255) 1 1) 1 255,
      [], -4, [(0, 0), (1, 1)]⟩ := by
    norm_num [fmmStep, fmmIter, updateCell, popMin, eikonalEstimate, readMem, INF,
    CELL_VISITED, CELL_NOT_VISITED, Function.update, max_def, min_def,
    ratSqrt49, ratSqrt49Q, ratSqrt0, List.cons_ne_nil]
  have eC4 : fmmStep (⟨1, 2, readMem [1, 1], INF⟩ : FmmParams)
      ⟨Function.update (Function.update (Function.update (fun _ => INF) 0 (0)) 0 (0)) 1 (1),
      Function.update (Function.update (Function.update (fun _ => 0) 0 255) 1 1) 1 255,
      [], -4, [(0, 0), (1, 1)]⟩ =
      ⟨Function.update (Function.update (Function.update (fun _ => INF) 0 (0)) 0 (0)) 1 (1),
      Function.update (Function.update (Function.update (fun _ => 0) 0 255) 1 1) 1 255,
      [], -4, [(0, 0), (1, 1)]⟩ := by
    norm_num [fmmStep, fmmIter, updateCell, popMin, eikonalEstimate, readMem, INF,
    CELL_VISITED, CELL_NOT_VISITED, Function.update, max_def, min_def,
    ratSqrt49, ratSqrt49Q, ratSqrt0, List.cons_ne_nil]
  have eC5 : fmmStep (⟨1, 2, readMem [1, 1], INF⟩ : FmmParams)
      ⟨Function.update (Function.update (Function.update (fun _ => INF) 0 (0)) 0 (0)) 1 (1),
      Function.update (Function.update (Function.update (fun _ => 0) 0 255) 1 1) 1 255,
      [], -4, [(0, 0), (1, 1)]⟩ =
      ⟨Function.update (Function.update (Function.update (fun _ => INF) 0 (0)) 0 (0)) 1 (1),
      Function.update (Function.update (Function.update (fun _ => 0) 0 255) 1 1) 1 255,
      [], -4, [(0, 0), (1, 1)]⟩ := by
    norm_num [fmmStep, fmmIter, updateCell, popMin, eikonalEstimate, readMem, INF,
    CELL_VISITED, CELL_NOT_VISITED, Function.update, max_def, min_def,
    ratSqrt49, ratSqrt49Q, ratSqrt0, List.cons_ne_nil]
  have hrunC : fmmRunState 1 2 [1, 1] [(0, 0), (0, 0)] .identity INF (-1) =
      ⟨Function.update (Function.update (Function.update (fun _ => INF) 0 (0)) 0 (0)) 1 (1),
      Function.update (Function.update (Function.update (fun _ => 0) 0 255) 1 1) 1 255,
      [], -4, [(0, 0), (1, 1)]⟩ := by
    simp only [fmmRunState, buildWeights,
      show ([(0, 0), (0, 0)] : List (Int × Int)).length + ((1 : Int) * 2).toNat + 1 = 5 from rfl]
    rw [eC0]
    simp only [fmmLoop]
    rw [eC1, eC2, eC3, eC4, eC5]

  rw [hrunB, hrunC]
  norm_num [Function.update, INF]

set_option maxHeartbeats 1000000 in
/-- Claim C3, counterexample: unit cost on a 1×3 grid, one seed,
`max_visits = 0`, so nothing beyond the seed is reached and the grid maximum
is the infinite sentinel; normalization still divides, turning the sentinel
cells into 1 instead of leaving the field at its sentinel value — there is
no explicit branch for the degenerate cases. -/
theorem sentinel_not_kept_by_normalization :
    fmm 1 3 [1, 1, 1] [(0, 0)] .identity INF true 0 = [0, 1, 1] ∧
    fmmGrid (fmmRunState 1 3 [1, 1, 1] [(0, 0)] .identity INF 0) 3 = [0, INF, INF] ∧
    (1 : ℚ) ≠ INF := by
  have eD0 : initState (⟨1, 3, readMem [1, 1, 1], INF⟩ : FmmParams) [(0, 0)] (0) =
      ⟨Function.update (fun _ => INF) 0 (0),
      fun _ => 0,
      [⟨0, 0, 0⟩], 0, []⟩ := by
    norm_num [initState, seedPush]
  have eD1 : fmmStep (⟨1, 3, readMem [1, 1, 1], INF⟩ : FmmParams)
      ⟨Function.update (fun _ => INF) 0 (0),
      fun _ => 0,
      [⟨0, 0, 0⟩], 0, []⟩ =
      ⟨Function.update (fun _ => INF) 0 (0),
      fun _ => 0,
      [⟨0, 0, 0⟩], 0, []⟩ := by
    norm_num [fmmStep, fmmIter, updateCell, popMin, eikonalEstimate, readMem, INF,
    CELL_VISITED, CELL_NOT_VISITED, Function.update, max_def, min_def,
    ratSqrt49, ratSqrt49Q, ratSqrt0, List.cons_ne_nil]
  have eD2 : fmmStep (⟨1, 3, readMem [1, 1, 1], INF⟩ : FmmParams)
      ⟨Function.update (fun _ => INF) 0 (0),
      fun _ => 0,
      [⟨0, 0, 0⟩], 0, []⟩ =
      ⟨Function.update (fun _ => INF) 0 (0),
      fun _ => 0,
      [⟨0, 0, 0⟩], 0, []⟩ := by
    norm_num [fmmStep, fmmIter, updateCell, popMin, eikonalEstimate, readMem, INF,
    CELL_VISITED, CELL_NOT_VISITED, Function.update, max_def, min_def,
    ratSqrt49, ratSqrt49Q, ratSqrt0, List.cons_ne_nil]
  have eD3 : fmmStep (⟨1, 3, readMem [1, 1, 1], INF⟩ : FmmParams)
      ⟨Function.update (fun _ => INF) 0 (0),
      fun _ => 0,
      [⟨0, 0, 0⟩], 0, []⟩ =
      ⟨Function.update (fun _ => INF) 0 (0),
      fun _ => 0,
      [⟨0, 0, 0⟩], 0, []⟩ := by
    norm_num [fmmStep, fmmIter, updateCell, popMin, eikonalEstimate, readMem, INF,
    CELL_VISITED, CELL_NOT_VISITED, Function.update, max_def, min_def,
    ratSqrt49, ratSqrt49Q, ratSqrt0, List.cons_ne_nil]
  have eD4 : fmmStep (⟨1, 3, readMem [1, 1, 1], INF⟩ : FmmParams)
      ⟨Function.update (fun _ => INF) 0 (0),
      fun _ => 0,
      [⟨0, 0, 0⟩], 0, []⟩ =
      ⟨Function.update (fun _ => INF) 0 (0),
      fun _ => 0,
      [⟨0, 0, 0⟩], 0, []⟩ := by
    norm_num [fmmStep, fmmIter, updateCell, popMin, eikonalEstimate, readMem, INF,
    CELL_VISITED, CELL_NOT_VISITED, Function.update, max_def, min_def,
    ratSqrt49, ratSqrt49Q, ratSqrt0, List.cons_ne_nil]
  have eD5 : fmmStep (⟨1, 3, readMem [1, 1, 1], INF⟩ : FmmParams)
      ⟨Function.update (fun _ => INF) 0 (0),
      fun _ => 0,
      [⟨0, 0, 0⟩], 0, []⟩ =
      ⟨Function.update (fun _ => INF) 0 (0),
      fun _ => 0,
      [⟨0, 0, 0⟩], 0, []⟩ := by
    norm_num [fmmStep, fmmIter, updateCell, popMin, eikonalEstimate, readMem, INF,
    CELL_VISITED, CELL_NOT_VISITED, Function.update, max_def, min_def,
    ratSqrt49, ratSqrt49Q, ratSqrt0, List.cons_ne_nil]
  have hrunD : fmmRunState 1 3 [1, 1, 1] [(0, 0)] .identity INF (0) =
      ⟨Function.update (fun _ => INF) 0 (0),
      fun _ => 0,
      [⟨0, 0, 0⟩], 0, []⟩ := by
    simp only [fmmRunState, buildWeights,
      show ([(0, 0)] : List (Int × Int)).length + ((1 : Int) * 3).toNat + 1 = 5 from rfl]
    rw [eD0]
    simp only [fmmLoop]
    rw [eD1, eD2, eD3, eD4, eD5]

  refine ⟨?_, ?_, by norm_num [INF]⟩
  · simp only [fmm]
    rw [hrunD]
    norm_num [fmmGrid, normalizeStep, thresholdStep, maxvalOf, Function.update, INF, max_def,
      show ((1 : Int) * 3).toNat = 3 from rfl, show Int.toNat 3 = 3 from rfl,
      show List.range 3 = [0, 1, 2] from rfl]
  · rw [hrunD]
    norm_num [fmmGrid, Function.update, INF, show Int.toNat 3 = 3 from rfl,
      show List.range 3 = [0, 1, 2] from rfl]

set_option maxHeartbeats 1000000 in
/-- Claim C4, counterexample: unit cost on a 1×3 grid, one seed,
`max_visits = 1`, normalization on.  One non-seed cell is reached
(pre-normalization distance 1, which is also the maximum finite distance),
but the divisor is the whole-grid maximum — the sentinel — so that cell
comes out as `1/INF`, not `1/1 = 1` as the claim requires. -/
theorem normalization_divides_by_sentinel_not_max_finite :
    fmm 1 3 [1, 1, 1] [(0, 0)] .identity INF true 1 = [0, 1/INF, 1] ∧
    fmmGrid (fmmRunState 1 3 [1, 1, 1] [(0, 0)] .identity INF 1) 3 = [0, 1, INF] ∧
    1/INF ≠ (1 : ℚ)/1 := by
  have eE0 : initState (⟨1, 3, readMem [1, 1, 1], INF⟩ : FmmParams) [(0, 0)] (1) =
      ⟨Function.update (fun _ => INF) 0 (0),
      fun _ => 0,
      [⟨0, 0, 0⟩], 1, []⟩ := by
    norm_num [initState, seedPush]
  have eE1 : fmmStep (⟨1, 3, readMem [1, 1, 1], INF⟩ : FmmParams)
      ⟨Function.update (fun _ => INF) 0 (0),
      fun _ => 0,
      [⟨0, 0, 0⟩], 1, []⟩ =
      ⟨Function.update (Function.update (fun _ => INF) 0 (0)) 1 (1),
      Function.update (Function.update (fun _ => 0) 0 255) 1 1,
      [⟨1, 1, 1⟩], 0, [(0, 0)]⟩ := by
    norm_num [fmmStep, fmmIter, updateCell, popMin, eikonalEstimate, readMem, INF,
    CELL_VISITED, CELL_NOT_VISITED, Function.update, max_def, min_def,
    ratSqrt49, ratSqrt49Q, ratSqrt0, List.cons_ne_nil]
  have eE2 : fmmStep (⟨1, 3, readMem [1, 1, 1], INF⟩ : FmmParams)
      ⟨Function.update (Function.update (fun _ => INF) 0 (0)) 1 (1),
      Function.update (Function.update (fun _ => 0) 0 255) 1 1,
      [⟨1, 1, 1⟩], 0, [(0, 0)]⟩ =
      ⟨Function.update (Function.update (fun _ => INF) 0 (0)) 1 (1),
      Function.update (Function.update (fun _ => 0) 0 255) 1 1,
      [⟨1, 1, 1⟩], 0, [(0, 0)]⟩ := by
    norm_num [fmmStep, fmmIter, updateCell, popMin, eikonalEstimate, readMem, INF,
    CELL_VISITED, CELL_NOT_VISITED, Function.update, max_def, min_def,
    ratSqrt49, ratSqrt49Q, ratSqrt0, List.cons_ne_nil]
  have eE3 : fmmStep (⟨1, 3, readMem [1, 1, 1], INF⟩ : FmmParams)
      ⟨Function.update (Function.update (fun _ => INF) 0 (0)) 1 (1),
      Function.update (Function.update (fun _ => 0) 0 255) 1 1,
      [⟨1, 1, 1⟩], 0, [(0, 0)]⟩ =
      ⟨Function.update (Function.update (fun _ => INF) 0 (0)) 1 (1),
      Function.update (Function.update (fun _ => 0) 0 255) 1 1,
      [⟨1, 1, 1⟩], 0, [(0, 0)]⟩ := by
    norm_num [fmmStep, fmmIter, updateCell, popMin, eikonalEstimate, readMem, INF,
    CELL_VISITED, CELL_NOT_VISITED, Function.update, max_def, min_def,
    ratSqrt49, ratSqrt49Q, ratSqrt0, List.cons_ne_nil]
  have eE4 : fmmStep (⟨1, 3, readMem [1, 1, 1], INF⟩ : FmmParams)
      ⟨Function.update (Function.update (fun _ => INF) 0 (0)) 1 (1),
      Function.update (Function.update (fun _ => 0) 0 255) 1 1,
      [⟨1, 1, 1⟩], 0, [(0, 0)]⟩ =
      ⟨Function.update (Function.update (fun _ => INF) 0 (0)) 1 (1),
      Function.update (Function.update (fun _ => 0) 0 255) 1 1,
      [⟨1, 1, 1⟩], 0, [(0, 0)]⟩ := by
    norm_num [fmmStep, fmmIter, updateCell, popMin, eikonalEstimate, readMem, INF,
    CELL_VISITED, CELL_NOT_VISITED, Function.update, max_def, min_def,
    ratSqrt49, ratSqrt49Q, ratSqrt0, List.cons_ne_nil]
  have eE5 : fmmStep (⟨1, 3, readMem [1, 1, 1], INF⟩ : FmmParams)
      ⟨Function.update (Function.update (fun _ => INF) 0 (0)) 1 (1),
      Function.update (Function.update (fun _ => 0) 0 255) 1 1,
      [⟨1, 1, 1⟩], 0, [(0, 0)]⟩ =
      ⟨Function.update (Function.update (fun _ => INF) 0 (0)) 1 (1),
      Function.update (Function.update (fun _ => 0) 0 255) 1 1,
      [⟨1, 1, 1⟩], 0, [(0, 0)]⟩ := by
    norm_num [fmmStep, fmmIter, updateCell, popMin, eikonalEstimate, readMem, INF,
    CELL_VISITED, CELL_NOT_VISITED, Function.update, max_def, min_def,
    ratSqrt49, ratSqrt49Q, ratSqrt0, List.cons_ne_nil]
  have hrunE : fmmRunState 1 3 [1, 1, 1] [(0, 0)] .identity INF (1) =
      ⟨Function.update (Function.update (fun _ => INF) 0 (0)) 1 (1),
      Function.update (Function.update (fun _ => 0) 0 255) 1 1,
      [⟨1, 1, 1⟩], 0, [(0, 0)]⟩ := by
    simp only [fmmRunState, buildWeights,
      show ([(0, 0)] : List (Int × Int)).length + ((1 : Int) * 3).toNat + 1 = 5 from rfl]
    rw [eE0]
    simp only [fmmLoop]
    rw [eE1, eE2, eE3, eE4, eE5]

  refine ⟨?_, ?_, by norm_num [INF]⟩
  · simp only [fmm]
    rw [hrunE]
    norm_num [fmmGrid, normalizeStep, thresholdStep, maxvalOf, Function.update, INF, max_def,
      show ((1 : Int) * 3).toNat = 3 from rfl, show Int.toNat 3 = 3 from rfl,
      show List.range 3 = [0, 1, 2] from rfl]
  · rw [hrunE]
    norm_num [fmmGrid, Function.update, INF, show Int.toNat 3 = 3 from rfl,
      show List.range 3 = [0, 1, 2] from rfl]

set_option maxHeartbeats 1000000 in
/-- Claim C5, counterexample: a non-negative 2×3 cost field and a single
seed for which the distances recorded at the successive finalizations are
`[0, 1/2, 1, 9/2, 4, 6]` — not non-decreasing.  The center cell is first
updated to 5 and pushed, later improved to 4 by a second Known neighbor
*without* a re-push (the source pushes only on a Far→Trial transition), and
a third cell finalizes at 9/2 in between; the stale entry then finalizes the
center at 4 < 9/2.  Both quadratic-branch discriminants of this run (49 and
49/4) are perfect squares, so `ratSqrt` agrees with the real square root
throughout. -/
theorem finalized_distances_not_monotone :
    (fmmRunState 2 3 [1/2, 1/2, 7/2, 1, 5, 5/2] [(0, 1)] .identity INF (-1)).trace.map Prod.snd
      = [0, 1/2, 1, 9/2, 4, 6] ∧
    ¬ List.Chain' (· ≤ ·)
      ((fmmRunState 2 3 [1/2, 1/2, 7/2, 1, 5, 5/2] [(0, 1)] .identity INF (-1)).trace.map Prod.snd) ∧
    (0 ≤ (1 : ℚ)/2 ∧ 0 ≤ (7 : ℚ)/2 ∧ 0 ≤ (1 : ℚ) ∧ 0 ≤ (5 : ℚ) ∧ 0 ≤ (5 : ℚ)/2) := by
  have eA0 : initState (⟨2, 3, readMem [1/2, 1/2, 7/2, 1, 5, 5/2], INF⟩ : FmmParams) [(0, 1)] (-1) =
      ⟨Function.update (fun _ => INF) 3 (0),
      fun _ => 0,
      [⟨3, 0, 0⟩], -1, []⟩ := by
    norm_num [initState, seedPush]
  have eA1 : fmmStep (⟨2, 3, readMem [1/2, 1/2, 7/2, 1, 5, 5/2], INF⟩ : FmmParams)
      ⟨Function.update (fun _ => INF) 3 (0),
      fun _ => 0,
      [⟨3, 0, 0⟩], -1, []⟩ =
      ⟨Function.update (Function.update (Function.update (fun _ => INF) 3 (0)) 4 (5)) 0 (1/2),
      Function.update (Function.update (Function.update (fun _ => 0) 3 255) 4 1) 0 1,
      [⟨0, 0, 1/2⟩, ⟨4, 1, 5⟩], -2, [(0, 0)]⟩ := by
    norm_num [fmmStep, fmmIter, updateCell, popMin, eikonalEstimate, readMem, INF,
    CELL_VISITED, CELL_NOT_VISITED, Function.update, max_def, min_def,
    ratSqrt49, ratSqrt49Q, ratSqrt0, List.cons_ne_nil]
  have eA2 : fmmStep (⟨2, 3, readMem [1/2, 1/2, 7/2, 1, 5, 5/2], INF⟩ : FmmParams)
      ⟨Function.update (Function.update (Function.update (fun _ => INF) 3 (0)) 4 (5)) 0 (1/2),
      Function.update (Function.update (Function.update (fun _ => 0) 3 255) 4 1) 0 1,
      [⟨0, 0, 1/2⟩, ⟨4, 1, 5⟩], -2, [(0, 0)]⟩ =
      ⟨Function.update (Function.update (Function.update (Function.update (fun _ => INF) 3 (0)) 4 (5)) 0 (1/2)) 1 (1),
      Function.update (Function.update (Function.update (Function.update (Function.update (fun _ => 0) 3 255) 4 1) 0 1) 0 255) 1 1,
      [⟨1, 1, 1⟩, ⟨4, 1, 5⟩], -3, [(0, 0), (1/2, 1/2)]⟩ := by
    norm_num [fmmStep, fmmIter, updateCell, popMin, eikonalEstimate, readMem, INF,
    CELL_VISITED, CELL_NOT_VISITED, Function.update, max_def, min_def,
    ratSqrt49, ratSqrt49Q, ratSqrt0, List.cons_ne_nil]
  have eA3 : fmmStep (⟨2, 3, readMem [1/2, 1/2, 7/2, 1, 5, 5/2], INF⟩ : FmmParams)
      ⟨Function.update (Function.update (Function.update (Function.update (fun _ => INF) 3 (0)) 4 (5)) 0 (1/2)) 1 (1),
      Function.update (Function.update (Function.update (Function.update (Function.update (fun _ => 0) 3 255) 4 1) 0 1) 0 255) 1 1,
      [⟨1, 1, 1⟩, ⟨4, 1, 5⟩], -3, [(0, 0), (1/2, 1/2)]⟩ =
      ⟨Function.update (Function.update (Function.update (Function.update (Function.update (Function.update (fun _ => INF) 3 (0)) 4 (5)) 0 (1/2)) 1 (1)) 2 (9/2)) 4 (4),
      Function.update (Function.update (Function.update (Function.update (Function.update (Function.update (Function.update (fun _ => 0) 3 255) 4 1) 0 1) 0 255) 1 1) 1 255) 2 1,
      [⟨2, 2, 9/2⟩, ⟨4, 1, 5⟩], -4, [(0, 0), (1/2, 1/2), (1, 1)]⟩ := by
    norm_num [fmmStep, fmmIter, updateCell, popMin, eikonalEstimate, readMem, INF,
    CELL_VISITED, CELL_NOT_VISITED, Function.update, max_def, min_def,
    ratSqrt49, ratSqrt49Q, ratSqrt0, List.cons_ne_nil]
  have eA4 : fmmStep (⟨2, 3, readMem [1/2, 1/2, 7/2, 1, 5, 5/2], INF⟩ : FmmParams)
      ⟨Function.update (Function.update (Function.update (Function.update (Function.update (Function.update (fun _ => INF) 3 (0)) 4 (5)) 0 (1/2)) 1 (1)) 2 (9/2)) 4 (4),
      Function.update (Function.update (Function.update (Function.update (Function.update (Function.update (Function.update (fun _ => 0) 3 255) 4 1) 0 1) 0 255) 1 1) 1 255) 2 1,
      [⟨2, 2, 9/2⟩, ⟨4, 1, 5⟩], -4, [(0, 0), (1/2, 1/2), (1, 1)]⟩ =
      ⟨Function.update (Function.update (Function.update (Function.update (Function.update (Function.update (Function.update (fun _ => INF) 3 (0)) 4 (5)) 0 (1/2)) 1 (1)) 2 (9/2)) 4 (4)) 5 (6),
      Function.update (Function.update (Function.update (Function.update (Function.update (Function.update (Function.update (Function.update (Function.update (fun _ => 0) 3 255) 4 1) 0 1) 0 255) 1 1) 1 255) 2 1) 2 255) 5 1,
      [⟨5, 2, 6⟩, ⟨4, 1, 5⟩], -5, [(0, 0), (1/2, 1/2), (1, 1), (9/2, 9/2)]⟩ := by
    norm_num [fmmStep, fmmIter, updateCell, popMin, eikonalEstimate, readMem, INF,
    CELL_VISITED, CELL_NOT_VISITED, Function.update, max_def, min_def,
    ratSqrt49, ratSqrt49Q, ratSqrt0, List.cons_ne_nil]
  have eA5 : fmmStep (⟨2, 3, readMem [1/2, 1/2, 7/2, 1, 5, 5/2], INF⟩ : FmmParams)
      ⟨Function.update (Function.update (Function.update (Function.update (Function.update (Function.update (Function.update (fun _ => INF) 3 (0)) 4 (5)) 0 (1/2)) 1 (1)) 2 (9/2)) 4 (4)) 5 (6),
      Function.update (Function.update (Function.update (Function.update (Function.update (Function.update (Function.update (Function.update (Function.update (fun _ => 0) 3 255) 4 1) 0 1) 0 255) 1 1) 1 255) 2 1) 2 255) 5 1,
      [⟨5, 2, 6⟩, ⟨4, 1, 5⟩], -5, [(0, 0), (1/2, 1/2), (1, 1), (9/2, 9/2)]⟩ =
      ⟨Function.update (Function.update (Function.update (Function.update (Function.update (Function.update (Function.update (fun _ => INF) 3 (0)) 4 (5)) 0 (1/2)) 1 (1)) 2 (9/2)) 4 (4)) 5 (6),
      Function.update (Function.update (Function.update (Function.update (Function.update (Function.update (Function.update (Function.update (Function.update (Function.update (fun _ => 0) 3 255) 4 1) 0 1) 0 255) 1 1) 1 255) 2 1) 2 255) 5 1) 4 255,
      [⟨5, 2, 6⟩], -6, [(0, 0), (1/2, 1/2), (1, 1), (9/2, 9/2), (5, 4)]⟩ := by
    norm_num [fmmStep, fmmIter, updateCell, popMin, eikonalEstimate, readMem, INF,
    CELL_VISITED, CELL_NOT_VISITED, Function.update, max_def, min_def,
    ratSqrt49, ratSqrt49Q, ratSqrt0, List.cons_ne_nil]
  have eA6 : fmmStep (⟨2, 3, readMem [1/2, 1/2, 7/2, 1, 5, 5/2], INF⟩ : FmmParams)
      ⟨Function.update (Function.update (Function.update (Function.update (Function.update (Function.update (Function.update (fun _ => INF) 3 (0)) 4 (5)) 0 (1/2)) 1 (1)) 2 (9/2)) 4 (4)) 5 (6),
      Function.update (Function.update (Function.update (Function.update (Function.update (Function.update (Function.update (Function.update (Function.update (Function.update (fun _ => 0) 3 255) 4 1) 0 1) 0 255) 1 1) 1 255) 2 1) 2 255) 5 1) 4 255,
      [⟨5, 2, 6⟩], -6, [(0, 0), (1/2, 1/2), (1, 1), (9/2, 9/2), (5, 4)]⟩ =
      ⟨Function.update (Function.update (Function.update (Function.update (Function.update (Function.update (Function.update (fun _ => INF) 3 (0)) 4 (5)) 0 (1/2)) 1 (1)) 2 (9/2)) 4 (4)) 5 (6),
      Function.update (Function.update (Function.update (Function.update (Function.update (Function.update (Function.update (Function.update (Function.update (Function.update (Function.update (fun _ => 0) 3 255) 4 1) 0 1) 0 255) 1 1) 1 255) 2 1) 2 255) 5 1) 4 255) 5 255,
      [], -7, [(0, 0), (1/2, 1/2), (1, 1), (9/2, 9/2), (5, 4), (6, 6)]⟩ := by
    norm_num [fmmStep, fmmIter, updateCell, popMin, eikonalEstimate, readMem, INF,
    CELL_VISITED, CELL_NOT_VISITED, Function.update, max_def, min_def,
    ratSqrt49, ratSqrt49Q, ratSqrt0, List.cons_ne_nil]
  have eA7 : fmmStep (⟨2, 3, readMem [1/2, 1/2, 7/2, 1, 5, 5/2], INF⟩ : FmmParams)
      ⟨Function.update (Function.update (Function.update (Function.update (Function.update (Function.update (Function.update (fun _ => INF) 3 (0)) 4 (5)) 0 (1/2)) 1 (1)) 2 (9/2)) 4 (4)) 5 (6),
      Function.update (Function.update (Function.update (Function.update (Function.update (Function.update (Function.update (Function.update (Function.update (Function.update (Function.update (fun _ => 0) 3 255) 4 1) 0 1) 0 255) 1 1) 1 255) 2 1) 2 255) 5 1) 4 255) 5 255,
      [], -7, [(0, 0), (1/2, 1/2), (1, 1), (9/2, 9/2), (5, 4), (6, 6)]⟩ =
      ⟨Function.update (Function.update (Function.update (Function.update (Function.update (Function.update (Function.update (fun _ => INF) 3 (0)) 4 (5)) 0 (1/2)) 1 (1)) 2 (9/2)) 4 (4)) 5 (6),
      Function.update (Function.update (Function.update (Function.update (Function.update (Function.update (Function.update (Function.update (Function.update (Function.update (Function.update (fun _ => 0) 3 255) 4 1) 0 1) 0 255) 1 1) 1 255) 2 1) 2 255) 5 1) 4 255) 5 255,
      [], -7, [(0, 0), (1/2, 1/2), (1, 1), (9/2, 9/2), (5, 4), (6, 6)]⟩ := by
    norm_num [fmmStep, fmmIter, updateCell, popMin, eikonalEstimate, readMem, INF,
    CELL_VISITED, CELL_NOT_VISITED, Function.update, max_def, min_def,
    ratSqrt49, ratSqrt49Q, ratSqrt0, List.cons_ne_nil]
  have eA8 : fmmStep (⟨2, 3, readMem [1/2, 1/2, 7/2, 1, 5, 5/2], INF⟩ : FmmParams)
      ⟨Function.update (Function.update (Function.update (Function.update (Function.update (Function.update (Function.update (fun _ => INF) 3 (0)) 4 (5)) 0 (1/2)) 1 (1)) 2 (9/2)) 4 (4)) 5 (6),
      Function.update (Function.update (Function.update (Function.update (Function.update (Function.update (Function.update (Function.update (Function.update (Function.update (Function.update (fun _ => 0) 3 255) 4 1) 0 1) 0 255) 1 1) 1 255) 2 1) 2 255) 5 1) 4 255) 5 255,
      [], -7, [(0, 0), (1/2, 1/2), (1, 1), (9/2, 9/2), (5, 4), (6, 6)]⟩ =
      ⟨Function.update (Function.update (Function.update (Function.update (Function.update (Function.update (Function.update (fun _ => INF) 3 (0)) 4 (5)) 0 (1/2)) 1 (1)) 2 (9/2)) 4 (4)) 5 (6),
      Function.update (Function.update (Function.update (Function.update (Function.update (Function.update (Function.update (Function.update (Function.update (Function.update (Function.update (fun _ => 0) 3 255) 4 1) 0 1) 0 255) 1 1) 1 255) 2 1) 2 255) 5 1) 4 255) 5 255,
      [], -7, [(0, 0), (1/2, 1/2), (1, 1), (9/2, 9/2), (5, 4), (6, 6)]⟩ := by
    norm_num [fmmStep, fmmIter, updateCell, popMin, eikonalEstimate, readMem, INF,
    CELL_VISITED, CELL_NOT_VISITED, Function.update, max_def, min_def,
    ratSqrt49, ratSqrt49Q, ratSqrt0, List.cons_ne_nil]
  have hrunA : fmmRunState 2 3 [1/2, 1/2, 7/2, 1, 5, 5/2] [(0, 1)] .identity INF (-1) =
      ⟨Function.update (Function.update (Function.update (Function.update (Function.update (Function.update (Function.update (fun _ => INF) 3 (0)) 4 (5)) 0 (1/2)) 1 (1)) 2 (9/2)) 4 (4)) 5 (6),
      Function.update (Function.update (Function.update (Function.update (Function.update (Function.update (Function.update (Function.update (Function.update (Function.update (Function.update (fun _ => 0) 3 255) 4 1) 0 1) 0 255) 1 1) 1 255) 2 1) 2 255) 5 1) 4 255) 5 255,
      [], -7, [(0, 0), (1/2, 1/2), (1, 1), (9/2, 9/2), (5, 4), (6, 6)]⟩ := by
    simp only [fmmRunState, buildWeights,
      show ([(0, 1)] : List (Int × Int)).length + ((2 : Int) * 3).toNat + 1 = 8 from rfl]
    rw [eA0]
    simp only [fmmLoop]
    rw [eA1, eA2, eA3, eA4, eA5, eA6, eA7, eA8]

  rw [hrunA]
  norm_num [List.chain'_cons]

set_option maxHeartbeats 1000000 in
/-- Claim C8, counterexample: `fmm` performs no seed validation.  On a 2×2
grid, the out-of-range seed `(0, 5)` is silently indexed: the run writes
distance 0 and status Known at flat index 10, far outside the 4-cell grid,
and no error is reported (the function returns a grid as usual). -/
theorem out_of_range_seed_silently_indexed :
    (fmmRunState 2 2 [1, 1, 1, 1] [(0, 5)] .identity INF (-1)).dist 10 = 0 ∧
    (fmmRunState 2 2 [1, 1, 1, 1] [(0, 5)] .identity INF (-1)).status 10 = CELL_VISITED ∧
    ((10 : Int) < 0 ∨ (2 * 2 : Int) ≤ 10) ∧ (0 : ℚ) ≠ INF := by
  have eG0 : initState (⟨2, 2, readMem [1, 1, 1, 1], INF⟩ : FmmParams) [(0, 5)] (-1) =
      ⟨Function.update (fun _ => INF) 10 (0),
      fun _ => 0,
      [⟨10, 0, 0⟩], -1, []⟩ := by
    norm_num [initState, seedPush]
  have eG1 : fmmStep (⟨2, 2, readMem [1, 1, 1, 1], INF⟩ : FmmParams)
      ⟨Function.update (fun _ => INF) 10 (0),
      fun _ => 0,
      [⟨10, 0, 0⟩], -1, []⟩ =
      ⟨Function.update (Function.update (fun _ => INF) 10 (0)) 11 (0),
      Function.update (Function.update (fun _ => 0) 10 255) 11 1,
      [⟨11, 1, 0⟩], -2, [(0, 0)]⟩ := by
    norm_num [fmmStep, fmmIter, updateCell, popMin, eikonalEstimate, readMem, INF,
    CELL_VISITED, CELL_NOT_VISITED, Function.update, max_def, min_def,
    ratSqrt49, ratSqrt49Q, ratSqrt0, List.cons_ne_nil]
  have eG2 : fmmStep (⟨2, 2, readMem [1, 1, 1, 1], INF⟩ : FmmParams)
      ⟨Function.update (Function.update (fun _ => INF) 10 (0)) 11 (0),
      Function.update (Function.update (fun _ => 0) 10 255) 11 1,
      [⟨11, 1, 0⟩], -2, [(0, 0)]⟩ =
      ⟨Function.update (Function.update (fun _ => INF) 10 (0)) 11 (0),
      Function.update (Function.update (Function.update (fun _ => 0) 10 255) 11 1) 11 255,
      [], -3, [(0, 0), (0, 0)]⟩ := by
    norm_num [fmmStep, fmmIter, updateCell, popMin, eikonalEstimate, readMem, INF,
    CELL_VISITED, CELL_NOT_VISITED, Function.update, max_def, min_def,
    ratSqrt49, ratSqrt49Q, ratSqrt0, List.cons_ne_nil]
  have eG3 : fmmStep (⟨2, 2, readMem [1, 1, 1, 1], INF⟩ : FmmParams)
      ⟨Function.update (Function.update (fun _ => INF) 10 (0)) 11 (0),
      Function.update (Function.update (Function.update (fun _ => 0) 10 255) 11 1) 11 255,
      [], -3, [(0, 0), (0, 0)]⟩ =
      ⟨Function.update (Function.update (fun _ => INF) 10 (0)) 11 (0),
      Function.update (Function.update (Function.update (fun _ => 0) 10 255) 11 1) 11 255,
      [], -3, [(0, 0), (0, 0)]⟩ := by
    norm_num [fmmStep, fmmIter, updateCell, popMin, eikonalEstimate, readMem, INF,
    CELL_VISITED, CELL_NOT_VISITED, Function.update, max_def, min_def,
    ratSqrt49, ratSqrt49Q, ratSqrt0, List.cons_ne_nil]
  have eG4 : fmmStep (⟨2, 2, readMem [1, 1, 1, 1], INF⟩ : FmmParams)
      ⟨Function.update (Function.update (fun _ => INF) 10 (0)) 11 (0),
      Function.update (Function.update (Function.update (fun _ => 0) 10 255) 11 1) 11 255,
      [], -3, [(0, 0), (0, 0)]⟩ =
      ⟨Function.update (Function.update (fun _ => INF) 10 (0)) 11 (0),
      Function.update (Function.update (Function.update (fun _ => 0) 10 255) 11 1) 11 255,
      [], -3, [(0, 0), (0, 0)]⟩ := by
    norm_num [fmmStep, fmmIter, updateCell, popMin, eikonalEstimate, readMem, INF,
    CELL_VISITED, CELL_NOT_VISITED, Function.update, max_def, min_def,
    ratSqrt49, ratSqrt49Q, ratSqrt0, List.cons_ne_nil]
  have eG5 : fmmStep (⟨2, 2, readMem [1, 1, 1, 1], INF⟩ : FmmParams)
      ⟨Function.update (Function.update (fun _ => INF) 10 (0)) 11 (0),
      Function.update (Function.update (Function.update (fun _ => 0) 10 255) 11 1) 11 255,
      [], -3, [(0, 0), (0, 0)]⟩ =
      ⟨Function.update (Function.update (fun _ => INF) 10 (0)) 11 (0),
      Function.update (Function.update (Function.update (fun _ => 0) 10 255) 11 1) 11 255,
      [], -3, [(0, 0), (0, 0)]⟩ := by
    norm_num [fmmStep, fmmIter, updateCell, popMin, eikonalEstimate, readMem, INF,
    CELL_VISITED, CELL_NOT_VISITED, Function.update, max_def, min_def,
    ratSqrt49, ratSqrt49Q, ratSqrt0, List.cons_ne_nil]
  have eG6 : fmmStep (⟨2, 2, readMem [1, 1, 1, 1], INF⟩ : FmmParams)
      ⟨Function.update (Function.update (fun _ => INF) 10 (0)) 11 (0),
      Function.update (Function.update (Function.update (fun _ => 0) 10 255) 11 1) 11 255,
      [], -3, [(0, 0), (0, 0)]⟩ =
      ⟨Function.update (Function.update (fun _ => INF) 10 (0)) 11 (0),
      Function.update (Function.update (Function.update (fun _ => 0) 10 255) 11 1) 11 255,
      [], -3, [(0, 0), (0, 0)]⟩ := by
    norm_num [fmmStep, fmmIter, updateCell, popMin, eikonalEstimate, readMem, INF,
    CELL_VISITED, CELL_NOT_VISITED, Function.update, max_def, min_def,
    ratSqrt49, ratSqrt49Q, ratSqrt0, List.cons_ne_nil]
  have hrunG : fmmRunState 2 2 [1, 1, 1, 1] [(0, 5)] .identity INF (-1) =
      ⟨Function.update (Function.update (fun _ => INF) 10 (0)) 11 (0),
      Function.update (Function.update (Function.update (fun _ => 0) 10 255) 11 1) 11 255,
      [], -3, [(0, 0), (0, 0)]⟩ := by
    simp only [fmmRunState, buildWeights,
      show ([(0, 5)] : List (Int × Int)).length + ((2 : Int) * 2).toNat + 1 = 6 from rfl]
    rw [eG0]
    simp only [fmmLoop]
    rw [eG1, eG2, eG3, eG4, eG5, eG6]

  rw [hrunG]
  norm_num [Function.update, CELL_VISITED, INF]

/-- Claim C9: in the older revision's `gradient_weights` the right-column
guard reads `j + 1 > image.cols`, which is never true (`j < cols` always),
so in-grid right-hand stencil neighbors never contribute: on the 1×2 image
`[0, 100]` it returns `[0, 0]`, whereas the `max_visits` revision's builder
(whose guard is `j + 1 < image.cols`) lets the in-grid right neighbor
contribute, returning `[1000, 0]`. -/
theorem gradient_right_guard_never_fires :
    gradient_weights_old 1 2 [0, 100] = [0, 0] ∧
    gradient_weights 1 2 [0, 100] = [1000, 0] ∧
    (0 : ℚ) ≠ 1000 := by
  norm_num [gradient_weights, gradient_weights_old, gradientCell, gradientCellOld, readMem,
    ratSqrt0, ratSqrtMillion, show ((1 : Int) * 2).toNat = 2 from rfl,
    show Int.toNat 2 = 2 from rfl, show List.range 2 = [0, 1] from rfl]

/-! ### Claim C1: the Eikonal update against its specification -/

lemma eikonalEstimate_eq_specification (dl dr du dd c : ℚ) :
    eikonalEstimate dl dr du dd c = eikonalSpecification dl dr du dd c := by
  simp only [eikonalEstimate, eikonalSpecification]
  generalize min dl dr = A
  generalize min du dd = B
  rw [show 2 * B * A - B * B - A * A + 2 * c * c = 2 * B * A - B ^ 2 - A ^ 2 + 2 * c ^ 2 from by ring]

/-- Claim C1, confirmed: for an in-bounds cell `u = (x, y)` that is not yet
Known, `__update_cell` computes the tentative distance exactly as the
specification words the Eikonal update — from the four neighbor distances
`dleft, dright, dup, ddown` (each the infinite sentinel when out of bounds)
and the local cost `c`, with `dhoriz = min(dleft, dright)`,
`dvert = min(dup, ddown)`, `det = 2*dvert*dhoriz - dvert² - dhoriz² + 2*c²`,
the two-axis solution `(dhoriz + dvert + sqrt det) / 2` when `det ≥ 0` and
the fallback `min(dhoriz, dvert) + c` otherwise — and the cell keeps the
smaller of its old distance and that estimate. -/
theorem updateCell_matches_eikonal_specification
    (p : FmmParams) (s : FmmState) (u : QueueCell) (x y : Int)
    (hc : 0 < p.cols)
    (hx : 0 ≤ x) (hx2 : x < p.cols) (hy : 0 ≤ y) (hy2 : y < p.rows)
    (hid : u.id = x + y * p.cols) (hux : u.x = x)
    (hst : s.status u.id ≠ CELL_VISITED) :
    (updateCell p u s).dist u.id =
      min (s.dist u.id)
        (eikonalSpecification
          (if 0 < x then s.dist (u.id - 1) else INF)
          (if x + 1 < p.cols then s.dist (u.id + 1) else INF)
          (if 0 < y then s.dist (u.id - p.cols) else INF)
          (if y + 1 < p.rows then s.dist (u.id + p.cols) else INF)
          (p.cost u.id)) := by
  have hupIff : (p.cols ≤ x + y * p.cols) ↔ (0 < y) := by
    constructor
    · intro h
      by_contra hny
      push_neg at hny
      have hy0 : y = 0 := le_antisymm hny hy
      rw [hy0] at h
      simp only [zero_mul, add_zero] at h
      omega
    · intro h
      have h1 : 1 ≤ y := h
      nlinarith
  have hdownIff : (x + y * p.cols + p.cols < p.cols * p.rows) ↔ (y + 1 < p.rows) := by
    constructor
    · intro h
      by_contra hn
      push_neg at hn
      nlinarith
    · intro h
      nlinarith
  rw [← eikonalEstimate_eq_specification]
  simp only [updateCell]
  rw [if_neg hst]
  simp only [hid, hux, gt_iff_lt, ge_iff_le, sub_nonneg, hupIff, hdownIff]
  generalize (if 0 < x then s.dist (x + y * p.cols - 1) else INF) = DL
  generalize (if x + 1 < p.cols then s.dist (x + y * p.cols + 1) else INF) = DR
  generalize (if 0 < y then s.dist (x + y * p.cols - p.cols) else INF) = DU
  generalize (if y + 1 < p.rows then s.dist (x + y * p.cols + p.cols) else INF) = DD
  by_cases hlt : eikonalEstimate DL DR DU DD (p.cost (x + y * p.cols)) < s.dist (x + y * p.cols)
  · rw [if_pos hlt]
    by_cases hfar : s.status (x + y * p.cols) = CELL_NOT_VISITED
    · rw [if_pos hfar]
      simp only [Function.update_same]
      exact (min_eq_right hlt.le).symm
    · rw [if_neg hfar]
      simp only [Function.update_same]
      exact (min_eq_right hlt.le).symm
  · rw [if_neg hlt]
    exact (min_eq_left (not_lt.mp hlt)).symm

/-! ### Claim C6: forward-only status lifecycle -/

lemma progress_refl (s : FmmState) : Progress s s :=
  fun _ => ⟨le_refl _, fun h => ⟨h, rfl⟩⟩

lemma progress_trans {a b c : FmmState} (h1 : Progress a b) (h2 : Progress b c) :
    Progress a c := by
  intro i
  obtain ⟨r1, f1⟩ := h1 i
  obtain ⟨r2, f2⟩ := h2 i
  refine ⟨le_trans r1 r2, fun h => ?_⟩
  obtain ⟨hb, hd⟩ := f1 h
  obtain ⟨hcc, hdd⟩ := f2 hb
  exact ⟨hcc, hdd.trans hd⟩

lemma statusRank_le_two (st : ℕ) : statusRank st ≤ 2 := by
  unfold statusRank
  split
  · exact le_refl _
  · split
    · omega
    · omega

lemma progress_far_write (s : FmmState) (j xx : Int) (e : ℚ)
    (hj : s.status j = CELL_NOT_VISITED) :
    Progress s ⟨Function.update s.dist j e, Function.update s.status j 1,
      ⟨j, xx, e⟩ :: s.que, s.budget, s.trace⟩ := by
  intro i
  by_cases hi : i = j
  · subst hi
    simp only [Function.update_same]
    refine ⟨?_, fun h => ?_⟩
    · rw [hj]
      simp [statusRank, CELL_NOT_VISITED, CELL_VISITED]
    · rw [hj] at h
      simp [CELL_NOT_VISITED, CELL_VISITED] at h
  · simp only [Function.update_noteq hi]
    exact ⟨le_refl _, fun h => ⟨h, trivial⟩⟩

lemma progress_trial_write (s : FmmState) (j : Int) (e : ℚ)
    (hj : s.status j ≠ CELL_VISITED) :
    Progress s { s with dist := Function.update s.dist j e } := by
  intro i
  by_cases hi : i = j
  · subst hi
    exact ⟨le_refl _, fun h => absurd h hj⟩
  · simp only [Function.update_noteq hi]
    exact ⟨le_refl _, fun h => ⟨h, trivial⟩⟩

lemma updateCell_progress (p : FmmParams) (u : QueueCell) (s : FmmState) :
    Progress s (updateCell p u s) := by
  by_cases h255 : s.status u.id = CELL_VISITED
  · simp only [updateCell, if_pos h255]
    exact progress_refl s
  · simp only [updateCell, if_neg h255]
    repeat' split
    all_goals
      first
        | exact progress_refl s
        | (apply progress_far_write
           assumption)
        | (apply progress_trial_write
           exact h255)

lemma progress_que (s : FmmState) (q : List QueueCell) :
    Progress s { s with que := q } :=
  fun _ => ⟨le_refl _, fun h => ⟨h, rfl⟩⟩

lemma progress_budget (s : FmmState) (b : Int) :
    Progress s { s with budget := b } :=
  fun _ => ⟨le_refl _, fun h => ⟨h, rfl⟩⟩

lemma progress_finalize (s : FmmState) (j : Int) (tr : List (ℚ × ℚ))
    (hj : s.status j ≠ CELL_VISITED) :
    Progress s { s with status := Function.update s.status j CELL_VISITED, trace := tr } := by
  intro i
  by_cases hi : i = j
  · subst hi
    simp only [Function.update_same]
    refine ⟨?_, fun h => absurd h hj⟩
    have h3 : statusRank CELL_VISITED = 2 := by simp [statusRank]
    rw [h3]
    exact statusRank_le_two _
  · simp only [Function.update_noteq hi]
    exact ⟨le_refl _, fun h => ⟨h, trivial⟩⟩

lemma progress_ite_update (p : FmmParams) (c : Prop) [Decidable c] (uu : QueueCell)
    (t : FmmState) : Progress t (if c then updateCell p uu t else t) := by
  split
  · exact updateCell_progress p uu t
  · exact progress_refl t

lemma fmmIter_progress (p : FmmParams) (s : FmmState) : Progress s (fmmIter p s) := by
  unfold fmmIter
  cases hpop : popMin s.que with
  | none => exact progress_refl s
  | some ur =>
    obtain ⟨u, rest⟩ := ur
    dsimp only
    by_cases hguard : ({ s with que := rest } : FmmState).status u.id = CELL_VISITED ∨
        ({ s with que := rest } : FmmState).dist u.id > p.tau
    · rw [if_pos hguard]
      exact progress_que s rest
    · rw [if_neg hguard]
      push_neg at hguard
      refine progress_trans ?_ (progress_ite_update p _ _ _)
      refine progress_trans ?_ (progress_ite_update p _ _ _)
      refine progress_trans ?_ (progress_ite_update p _ _ _)
      refine progress_trans ?_ (progress_ite_update p _ _ _)
      refine progress_trans (progress_que s rest) ?_
      exact progress_finalize _ u.id _ hguard.1

lemma fmmStep_progress (p : FmmParams) (s : FmmState) : Progress s (fmmStep p s) := by
  unfold fmmStep
  by_cases h1 : s.que = []
  · rw [if_pos h1]
    exact progress_refl s
  · rw [if_neg h1]
    by_cases h2 : s.budget = 0
    · rw [if_pos h2]
      exact progress_refl s
    · rw [if_neg h2]
      exact progress_trans (progress_budget s (s.budget - 1)) (fmmIter_progress p _)

lemma fmmLoop_progress (p : FmmParams) (n : ℕ) (s : FmmState) :
    Progress s (fmmLoop p n s) := by
  induction n generalizing s with
  | zero => exact progress_refl s
  | succ n ih => exact progress_trans (fmmStep_progress p s) (ih (fmmStep p s))

/-- Claim C6, confirmed: over any further iterations of the propagation
loop, every cell's status only moves forward through Far → Trial → Known,
and once a cell is Known its status stays Known and its distance is never
written again by any later pop or neighbor update. -/
theorem status_moves_forward_and_known_distance_frozen
    (p : FmmParams) (s : FmmState) (n m : ℕ) (i : Int) :
    statusRank ((fmmLoop p n s).status i) ≤ statusRank ((fmmLoop p m (fmmLoop p n s)).status i) ∧
    ((fmmLoop p n s).status i = CELL_VISITED →
      (fmmLoop p m (fmmLoop p n s)).status i = CELL_VISITED ∧
      (fmmLoop p m (fmmLoop p n s)).dist i = (fmmLoop p n s).dist i) :=
  fmmLoop_progress p m (fmmLoop p n s) i

/-! ### Claims C2 and C5: budget and trace bounds -/

lemma popMin_mem : ∀ {l : List QueueCell} {u : QueueCell} {rest : List QueueCell},
    popMin l = some (u, rest) → u ∈ l := by
  intro l
  induction l with
  | nil => intro u rest h; simp [popMin] at h
  | cons c cs ih =>
    intro u rest h
    rw [popMin] at h
    cases hp : popMin cs with
    | none =>
      rw [hp] at h
      simp only [Option.some.injEq, Prod.mk.injEq] at h
      obtain ⟨rfl, rfl⟩ := h
      exact List.mem_cons_self c cs
    | some mr =>
      obtain ⟨m, rr⟩ := mr
      rw [hp] at h
      dsimp only at h
      split at h
      · simp only [Option.some.injEq, Prod.mk.injEq] at h
        obtain ⟨rfl, rfl⟩ := h
        exact List.mem_cons_self c cs
      · simp only [Option.some.injEq, Prod.mk.injEq] at h
        obtain ⟨rfl, rfl⟩ := h
        exact List.mem_cons_of_mem c (ih hp)

lemma popMin_rest_subset : ∀ {l : List QueueCell} {u : QueueCell} {rest : List QueueCell},
    popMin l = some (u, rest) → ∀ e ∈ rest, e ∈ l := by
  intro l
  induction l with
  | nil => intro u rest h; simp [popMin] at h
  | cons c cs ih =>
    intro u rest h
    rw [popMin] at h
    cases hp : popMin cs with
    | none =>
      rw [hp] at h
      simp only [Option.some.injEq, Prod.mk.injEq] at h
      rw [← h.2]
      intro e he
      simp at he
    | some mr =>
      obtain ⟨m, rr⟩ := mr
      rw [hp] at h
      dsimp only at h
      split at h
      · simp only [Option.some.injEq, Prod.mk.injEq] at h
        rw [← h.2]
        intro e he
        exact List.mem_cons_of_mem c he
      · simp only [Option.some.injEq, Prod.mk.injEq] at h
        rw [← h.2]
        intro e he
        rcases List.mem_cons.mp he with rfl | he2
        · exact List.mem_cons_self e cs
        · exact List.mem_cons_of_mem c (ih hp e he2)

lemma keyBound_far_write (s : FmmState) (j xx : Int) (e : ℚ)
    (hlt : e < s.dist j) (h : KeyBound s) :
    KeyBound ⟨Function.update s.dist j e, Function.update s.status j 1,
      ⟨j, xx, e⟩ :: s.que, s.budget, s.trace⟩ := by
  intro q hq
  dsimp only at hq ⊢
  rcases List.mem_cons.mp hq with rfl | hq2
  · rw [Function.update_same]
  · by_cases hje : q.id = j
    · rw [hje, Function.update_same]
      exact le_of_lt (lt_of_lt_of_le hlt (hje ▸ h q hq2))
    · rw [Function.update_noteq hje]
      exact h q hq2

lemma keyBound_trial_write (s : FmmState) (j : Int) (e : ℚ)
    (hlt : e < s.dist j) (h : KeyBound s) :
    KeyBound { s with dist := Function.update s.dist j e } := by
  intro q hq
  dsimp only at hq ⊢
  by_cases hje : q.id = j
  · rw [hje, Function.update_same]
    exact le_of_lt (lt_of_lt_of_le hlt (hje ▸ h q hq))
  · rw [Function.update_noteq hje]
    exact h q hq

lemma updateCell_keyBound (p : FmmParams) (u : QueueCell) (s : FmmState)
    (h : KeyBound s) : KeyBound (updateCell p u s) := by
  by_cases h255 : s.status u.id = CELL_VISITED
  · simp only [updateCell, if_pos h255]
    exact h
  · simp only [updateCell, if_neg h255]
    repeat' split
    all_goals
      first
        | exact h
        | exact keyBound_far_write _ _ _ _ (by assumption) h
        | exact keyBound_trial_write _ _ _ (by assumption) h

lemma updateCell_trace (p : FmmParams) (u : QueueCell) (s : FmmState) :
    (updateCell p u s).trace = s.trace := by
  simp only [updateCell]
  repeat' split
  all_goals rfl

lemma updateCell_budget (p : FmmParams) (u : QueueCell) (s : FmmState) :
    (updateCell p u s).budget = s.budget := by
  simp only [updateCell]
  repeat' split
  all_goals rfl

lemma ite_updateCell_inv (p : FmmParams) (c : Prop) [Decidable c] (uu : QueueCell)
    (t : FmmState) (h : StateInv t) : StateInv (if c then updateCell p uu t else t) := by
  split
  · refine ⟨updateCell_keyBound p uu t h.1, ?_⟩
    intro pr hpr
    rw [updateCell_trace] at hpr
    exact h.2 pr hpr
  · exact h

lemma fmmIter_inv (p : FmmParams) (s : FmmState) (hk : KeyBound s) (ht : TraceBound s) :
    StateInv (fmmIter p s) := by
  unfold fmmIter
  cases hpop : popMin s.que with
  | none => exact ⟨hk, ht⟩
  | some ur =>
    obtain ⟨u, rest⟩ := ur
    have hmem : u ∈ s.que := popMin_mem hpop
    have hsub : ∀ e ∈ rest, e ∈ s.que := popMin_rest_subset hpop
    dsimp only
    by_cases hguard : ({ s with que := rest } : FmmState).status u.id = CELL_VISITED ∨
        ({ s with que := rest } : FmmState).dist u.id > p.tau
    · rw [if_pos hguard]
      exact ⟨fun e he => hk e (hsub e he), ht⟩
    · rw [if_neg hguard]
      have hk2 : KeyBound { s with
          status := Function.update s.status u.id CELL_VISITED,
          que := rest, trace := s.trace ++ [(u.dist, s.dist u.id)] } :=
        fun e he => hk e (hsub e he)
      have ht2 : TraceBound { s with
          status := Function.update s.status u.id CELL_VISITED,
          que := rest, trace := s.trace ++ [(u.dist, s.dist u.id)] } := by
        intro pr hpr
        dsimp only at hpr
        rcases List.mem_append.mp hpr with hl | hr
        · exact ht pr hl
        · rw [List.mem_singleton] at hr
          rw [hr]
          exact hk u hmem
      refine ite_updateCell_inv p _ _ _ ?_
      refine ite_updateCell_inv p _ _ _ ?_
      refine ite_updateCell_inv p _ _ _ ?_
      refine ite_updateCell_inv p _ _ _ ?_
      exact ⟨hk2, ht2⟩

lemma fmmStep_inv (p : FmmParams) (s : FmmState) (hk : KeyBound s) (ht : TraceBound s) :
    StateInv (fmmStep p s) := by
  unfold fmmStep
  by_cases h1 : s.que = []
  · rw [if_pos h1]
    exact ⟨hk, ht⟩
  · rw [if_neg h1]
    by_cases h2 : s.budget = 0
    · rw [if_pos h2]
      exact ⟨hk, ht⟩
    · rw [if_neg h2]
      exact fmmIter_inv p _ hk ht

lemma fmmLoop_inv (p : FmmParams) (n : ℕ) (s : FmmState) (hk : KeyBound s)
    (ht : TraceBound s) : StateInv (fmmLoop p n s) := by
  induction n generalizing s with
  | zero => exact ⟨hk, ht⟩
  | succ n ih =>
    obtain ⟨hk1, ht1⟩ := fmmStep_inv p s hk ht
    exact ih (fmmStep p s) hk1 ht1

lemma seedPush_zero_inv (p : FmmParams) (s : FmmState) (sd : Int × Int)
    (h : ∀ e ∈ s.que, e.dist = 0 ∧ s.dist e.id = 0) :
    ∀ e ∈ (seedPush p s sd).que, e.dist = 0 ∧ (seedPush p s sd).dist e.id = 0 := by
  intro e he
  simp only [seedPush] at he ⊢
  rcases List.mem_cons.mp he with rfl | he2
  · exact ⟨rfl, by rw [Function.update_same]⟩
  · refine ⟨(h e he2).1, ?_⟩
    by_cases hje : e.id = sd.1 + sd.2 * p.cols
    · rw [hje, Function.update_same]
    · rw [Function.update_noteq hje]
      exact (h e he2).2

lemma foldl_seedPush_zero_inv (p : FmmParams) (seeds : List (Int × Int)) :
    ∀ s0 : FmmState, (∀ e ∈ s0.que, e.dist = 0 ∧ s0.dist e.id = 0) →
      ∀ e ∈ (seeds.foldl (seedPush p) s0).que,
        e.dist = 0 ∧ (seeds.foldl (seedPush p) s0).dist e.id = 0 := by
  induction seeds with
  | nil => intro s0 h; simpa using h
  | cons sd rest ih =>
    intro s0 h
    rw [List.foldl_cons]
    exact ih (seedPush p s0 sd) (seedPush_zero_inv p s0 sd h)

lemma initState_keyBound (p : FmmParams) (seeds : List (Int × Int)) (k : Int) :
    KeyBound (initState p seeds k) := by
  intro e he
  simp only [initState] at he ⊢
  have h := foldl_seedPush_zero_inv p seeds
    { dist := fun _ => INF, status := fun _ => 0, que := [], budget := k, trace := [] }
    (by intro q hq; simp at hq) e he
  rw [h.2, h.1]

lemma seedPush_trace_budget (p : FmmParams) (s : FmmState) (sd : Int × Int) :
    (seedPush p s sd).trace = s.trace ∧ (seedPush p s sd).budget = s.budget := ⟨rfl, rfl⟩

lemma foldl_seedPush_trace_budget (p : FmmParams) (seeds : List (Int × Int)) :
    ∀ s0 : FmmState, (seeds.foldl (seedPush p) s0).trace = s0.trace ∧
      (seeds.foldl (seedPush p) s0).budget = s0.budget := by
  induction seeds with
  | nil => intro s0; exact ⟨rfl, rfl⟩
  | cons sd rest ih =>
    intro s0
    rw [List.foldl_cons]
    exact ih (seedPush p s0 sd)

lemma initState_trace (p : FmmParams) (seeds : List (Int × Int)) (k : Int) :
    (initState p seeds k).trace = [] :=
  (foldl_seedPush_trace_budget p seeds _).1

lemma initState_budget (p : FmmParams) (seeds : List (Int × Int)) (k : Int) :
    (initState p seeds k).budget = k :=
  (foldl_seedPush_trace_budget p seeds _).2

/-- Claim C5, amended: the sequence of finalized distances is NOT always
non-decreasing for non-negative costs (an improved Trial cell is not pushed
again, so a later pop can finalize a distance lowered below an earlier
finalization — see the C5 counterexample).  What the code does guarantee:
every recorded finalization's distance is bounded by the key of the queue
entry whose pop finalized it. -/
theorem finalized_distance_le_pop_key (p : FmmParams) (seeds : List (Int × Int))
    (k : Int) (n : ℕ) (pr : ℚ × ℚ)
    (hpr : pr ∈ (fmmLoop p n (initState p seeds k)).trace) : pr.2 ≤ pr.1 := by
  have hinv := fmmLoop_inv p n (initState p seeds k) (initState_keyBound p seeds k)
    (by intro q hq; rw [initState_trace] at hq; simp at hq)
  exact hinv.2 pr hpr

lemma fmmIter_budget (p : FmmParams) (s : FmmState) : (fmmIter p s).budget = s.budget := by
  unfold fmmIter
  cases hpop : popMin s.que with
  | none => rfl
  | some ur =>
    obtain ⟨u, rest⟩ := ur
    dsimp only
    by_cases hguard : ({ s with que := rest } : FmmState).status u.id = CELL_VISITED ∨
        ({ s with que := rest } : FmmState).dist u.id > p.tau
    · rw [if_pos hguard]
    · rw [if_neg hguard]
      repeat' split
      all_goals simp only [updateCell_budget]

lemma fmmIter_trace_len (p : FmmParams) (s : FmmState) :
    (fmmIter p s).trace.length ≤ s.trace.length + 1 := by
  unfold fmmIter
  cases hpop : popMin s.que with
  | none => exact Nat.le_succ _
  | some ur =>
    obtain ⟨u, rest⟩ := ur
    dsimp only
    by_cases hguard : ({ s with que := rest } : FmmState).status u.id = CELL_VISITED ∨
        ({ s with que := rest } : FmmState).dist u.id > p.tau
    · rw [if_pos hguard]
      exact Nat.le_succ _
    · rw [if_neg hguard]
      repeat' split
      all_goals simp [updateCell_trace]

lemma fmmStep_budget_le (p : FmmParams) (s : FmmState) (k : Int)
    (h : 0 ≤ s.budget ∧ (s.trace.length : Int) + s.budget ≤ k) :
    0 ≤ (fmmStep p s).budget ∧
      ((fmmStep p s).trace.length : Int) + (fmmStep p s).budget ≤ k := by
  unfold fmmStep
  by_cases h1 : s.que = []
  · rw [if_pos h1]
    exact h
  · rw [if_neg h1]
    by_cases h2 : s.budget = 0
    · rw [if_pos h2]
      exact h
    · rw [if_neg h2]
      have hb := fmmIter_budget p { s with budget := s.budget - 1 }
      have htl := fmmIter_trace_len p { s with budget := s.budget - 1 }
      dsimp only at hb htl
      constructor
      · rw [hb]
        omega
      · rw [hb]
        have : ((fmmIter p { s with budget := s.budget - 1 }).trace.length : Int) ≤
            (s.trace.length : Int) + 1 := by exact_mod_cast htl
        omega

/-- Claim C2, amended: the visit budget `max_visits = k ≥ 0` is consumed
once per pop attempt — stale and threshold-pruned pops included — not once
per finalization, so a run cannot record more than `k` finalizations; the
claimed exact count `min(k, reachable cells)` fails (see the C2
counterexample).  The second conjunct pins down the accounting: every
iteration that pops at all decrements the budget by exactly one. -/
theorem budget_spent_per_pop_bounds_finalizations (p : FmmParams)
    (seeds : List (Int × Int)) (k : Int) (n : ℕ) (hk : 0 ≤ k) :
    (((fmmLoop p n (initState p seeds k)).trace.length : Int) ≤ k ∧
      ∀ t : FmmState, t.que ≠ [] → t.budget ≠ 0 → (fmmStep p t).budget = t.budget - 1) := by
  constructor
  · have inv : ∀ m : ℕ, ∀ s : FmmState,
        0 ≤ s.budget ∧ (s.trace.length : Int) + s.budget ≤ k →
        0 ≤ (fmmLoop p m s).budget ∧
          ((fmmLoop p m s).trace.length : Int) + (fmmLoop p m s).budget ≤ k := by
      intro m
      induction m with
      | zero => intro s h; exact h
      | succ m ih => intro s h; exact ih (fmmStep p s) (fmmStep_budget_le p s k h)
    have h0 : 0 ≤ (initState p seeds k).budget ∧
        ((initState p seeds k).trace.length : Int) + (initState p seeds k).budget ≤ k := by
      rw [initState_budget, initState_trace]
      simpa using hk
    have h := inv n (initState p seeds k) h0
    omega
  · intro t h1 h2
    unfold fmmStep
    rw [if_neg h1, if_neg h2]
    exact fmmIter_budget p { t with budget := t.budget - 1 }

/-! ### Claim C8: memory confinement for in-bounds seeds -/

lemma consistent_id_range (p : FmmParams) (hc : 0 < p.cols) {e : QueueCell}
    (h : ConsistentCell p e) : 0 ≤ e.id ∧ e.id < p.cols * p.rows := by
  obtain ⟨hx0, hx1, y, hy0, hy1, hid⟩ := h
  rw [hid]
  constructor
  · nlinarith
  · nlinarith

lemma memInv_far_write (p : FmmParams) (hc : 0 < p.cols) (s : FmmState)
    (j xx : Int) (e : ℚ) (hcell : ConsistentCell p ⟨j, xx, e⟩) (h : MemInv p s) :
    MemInv p ⟨Function.update s.dist j e, Function.update s.status j 1,
      ⟨j, xx, e⟩ :: s.que, s.budget, s.trace⟩ := by
  have hj := consistent_id_range p hc hcell
  dsimp only at hj
  constructor
  · intro q hq
    rcases List.mem_cons.mp hq with rfl | hq2
    · exact hcell
    · exact h.1 q hq2
  · intro i hi
    have hij : i ≠ j := by
      rcases hi with hi | hi
      · intro hcontra; rw [hcontra] at hi; omega
      · intro hcontra; rw [hcontra] at hi; omega
    dsimp only
    rw [Function.update_noteq hij, Function.update_noteq hij]
    exact h.2 i hi

lemma memInv_trial_write (p : FmmParams) (hc : 0 < p.cols) (s : FmmState)
    (j : Int) (e : ℚ) (hj : 0 ≤ j ∧ j < p.cols * p.rows) (h : MemInv p s) :
    MemInv p { s with dist := Function.update s.dist j e } := by
  constructor
  · intro q hq
    exact h.1 q hq
  · intro i hi
    have hij : i ≠ j := by
      rcases hi with hi | hi
      · intro hcontra; rw [hcontra] at hi; omega
      · intro hcontra; rw [hcontra] at hi; omega
    dsimp only
    rw [Function.update_noteq hij]
    exact h.2 i hi

lemma updateCell_memInv (p : FmmParams) (hc : 0 < p.cols) (u : QueueCell)
    (s : FmmState) (hu : ConsistentCell p u) (h : MemInv p s) :
    MemInv p (updateCell p u s) := by
  have hid := consistent_id_range p hc hu
  by_cases h255 : s.status u.id = CELL_VISITED
  · simp only [updateCell, if_pos h255]
    exact h
  · simp only [updateCell, if_neg h255]
    repeat' split
    all_goals
      first
        | exact h
        | exact memInv_far_write p hc s u.id u.x _ hu h
        | exact memInv_trial_write p hc s u.id _ hid h

lemma ite_updateCell_memInv (p : FmmParams) (hc : 0 < p.cols) (c : Prop)
    [Decidable c] (uu : QueueCell) (t : FmmState)
    (hcell : c → ConsistentCell p uu) (h : MemInv p t) :
    MemInv p (if c then updateCell p uu t else t) := by
  split
  · next hcc => exact updateCell_memInv p hc uu t (hcell hcc) h
  · exact h

lemma consistent_left (p : FmmParams) (u : QueueCell) (d : ℚ)
    (hu : ConsistentCell p u) (hg : u.x - 1 ≥ 0) :
    ConsistentCell p ⟨u.id - 1, u.x - 1, d⟩ := by
  obtain ⟨hx0, hx1, y, hy0, hy1, hid⟩ := hu
  exact ⟨show 0 ≤ u.x - 1 by omega, show u.x - 1 < p.cols by omega, y, hy0, hy1,
    show u.id - 1 = u.x - 1 + y * p.cols by rw [hid]; ring⟩

lemma consistent_right (p : FmmParams) (u : QueueCell) (d : ℚ)
    (hu : ConsistentCell p u) (hg : u.x + 1 < p.cols) :
    ConsistentCell p ⟨u.id + 1, u.x + 1, d⟩ := by
  obtain ⟨hx0, hx1, y, hy0, hy1, hid⟩ := hu
  exact ⟨show 0 ≤ u.x + 1 by omega, hg, y, hy0, hy1,
    show u.id + 1 = u.x + 1 + y * p.cols by rw [hid]; ring⟩

lemma consistent_up (p : FmmParams) (hc : 0 < p.cols) (u : QueueCell) (d : ℚ)
    (hu : ConsistentCell p u) (hg : u.id - p.cols ≥ 0) :
    ConsistentCell p ⟨u.id - p.cols, u.x, d⟩ := by
  obtain ⟨hx0, hx1, y, hy0, hy1, hid⟩ := hu
  rw [hid] at hg
  have hy1' : 1 ≤ y := by
    by_contra hcon
    push_neg at hcon
    have hy0' : y = 0 := by omega
    rw [hy0'] at hg
    simp only [zero_mul, add_zero] at hg
    omega
  exact ⟨hx0, hx1, y - 1, by omega, by omega,
    show u.id - p.cols = u.x + (y - 1) * p.cols by rw [hid]; ring⟩

lemma consistent_down (p : FmmParams) (hc : 0 < p.cols) (u : QueueCell) (d : ℚ)
    (hu : ConsistentCell p u) (hg : u.id + p.cols < p.cols * p.rows) :
    ConsistentCell p ⟨u.id + p.cols, u.x, d⟩ := by
  obtain ⟨hx0, hx1, y, hy0, hy1, hid⟩ := hu
  rw [hid] at hg
  have hy1' : y + 1 < p.rows := by
    by_contra hcon
    push_neg at hcon
    nlinarith
  exact ⟨hx0, hx1, y + 1, by omega, hy1',
    show u.id + p.cols = u.x + (y + 1) * p.cols by rw [hid]; ring⟩

lemma fmmIter_memInv (p : FmmParams) (hc : 0 < p.cols) (s : FmmState)
    (h : MemInv p s) : MemInv p (fmmIter p s) := by
  unfold fmmIter
  cases hpop : popMin s.que with
  | none => exact h
  | some ur =>
    obtain ⟨u, rest⟩ := ur
    have hu : ConsistentCell p u := h.1 u (popMin_mem hpop)
    have huid := consistent_id_range p hc hu
    have hrest : MemInv p { s with que := rest } :=
      ⟨fun e he => h.1 e (popMin_rest_subset hpop e he), fun i hi => h.2 i hi⟩
    dsimp only
    by_cases hguard : ({ s with que := rest } : FmmState).status u.id = CELL_VISITED ∨
        ({ s with que := rest } : FmmState).dist u.id > p.tau
    · rw [if_pos hguard]
      exact hrest
    · rw [if_neg hguard]
      have h2 : MemInv p { s with
          status := Function.update s.status u.id CELL_VISITED,
          que := rest, trace := s.trace ++ [(u.dist, s.dist u.id)] } := by
        refine ⟨hrest.1, ?_⟩
        intro i hi
        have hij : i ≠ u.id := by
          rcases hi with hi | hi
          · intro hcontra; rw [hcontra] at hi; omega
          · intro hcontra; rw [hcontra] at hi; omega
        dsimp only
        rw [Function.update_noteq hij]
        exact h.2 i hi
      refine ite_updateCell_memInv p hc _ _ _ (fun hg => consistent_down p hc u u.dist hu hg) ?_
      refine ite_updateCell_memInv p hc _ _ _ (fun hg => consistent_up p hc u u.dist hu hg) ?_
      refine ite_updateCell_memInv p hc _ _ _ (fun hg => consistent_right p u u.dist hu hg) ?_
      refine ite_updateCell_memInv p hc _ _ _ (fun hg => consistent_left p u u.dist hu hg) ?_
      exact h2

lemma fmmStep_memInv (p : FmmParams) (hc : 0 < p.cols) (s : FmmState)
    (h : MemInv p s) : MemInv p (fmmStep p s) := by
  unfold fmmStep
  by_cases h1 : s.que = []
  · rw [if_pos h1]
    exact h
  · rw [if_neg h1]
    by_cases h2 : s.budget = 0
    · rw [if_pos h2]
      exact h
    · rw [if_neg h2]
      exact fmmIter_memInv p hc _ ⟨fun e he => h.1 e he, fun i hi => h.2 i hi⟩

lemma fmmLoop_memInv (p : FmmParams) (hc : 0 < p.cols) (n : ℕ) (s : FmmState)
    (h : MemInv p s) : MemInv p (fmmLoop p n s) := by
  induction n generalizing s with
  | zero => exact h
  | succ n ih => exact ih (fmmStep p s) (fmmStep_memInv p hc s h)

lemma seedPush_memInv (p : FmmParams) (hc : 0 < p.cols) (s : FmmState)
    (sd : Int × Int) (hsd : 0 ≤ sd.1 ∧ sd.1 < p.cols ∧ 0 ≤ sd.2 ∧ sd.2 < p.rows)
    (h : MemInv p s) : MemInv p (seedPush p s sd) := by
  have hcell : ConsistentCell p ⟨sd.1 + sd.2 * p.cols, sd.1, 0⟩ :=
    ⟨hsd.1, hsd.2.1, sd.2, hsd.2.2.1, hsd.2.2.2, rfl⟩
  have hid := consistent_id_range p hc hcell
  dsimp only at hid
  constructor
  · intro q hq
    simp only [seedPush] at hq
    rcases List.mem_cons.mp hq with rfl | hq2
    · exact hcell
    · exact h.1 q hq2
  · intro i hi
    have hij : i ≠ sd.1 + sd.2 * p.cols := by
      rcases hi with hi | hi
      · intro hcontra; rw [hcontra] at hi; omega
      · intro hcontra; rw [hcontra] at hi; omega
    simp only [seedPush]
    rw [Function.update_noteq hij]
    exact ⟨(h.2 i hi).1, (h.2 i hi).2⟩

lemma foldl_seedPush_memInv (p : FmmParams) (hc : 0 < p.cols) :
    ∀ (seeds : List (Int × Int)) (s0 : FmmState),
      (∀ sd ∈ seeds, 0 ≤ sd.1 ∧ sd.1 < p.cols ∧ 0 ≤ sd.2 ∧ sd.2 < p.rows) →
      MemInv p s0 → MemInv p (seeds.foldl (seedPush p) s0) := by
  intro seeds
  induction seeds with
  | nil => intro s0 _ h; simpa using h
  | cons sd rest ih =>
    intro s0 hb h
    rw [List.foldl_cons]
    exact ih (seedPush p s0 sd) (fun q hq => hb q (List.mem_cons_of_mem sd hq))
      (seedPush_memInv p hc s0 sd (hb sd (List.mem_cons_self sd rest)) h)

lemma initState_memInv (p : FmmParams) (hc : 0 < p.cols)
    (seeds : List (Int × Int)) (k : Int)
    (hseeds : ∀ sd ∈ seeds, 0 ≤ sd.1 ∧ sd.1 < p.cols ∧ 0 ≤ sd.2 ∧ sd.2 < p.rows) :
    MemInv p (initState p seeds k) := by
  simp only [initState]
  refine foldl_seedPush_memInv p hc seeds _ hseeds ?_
  constructor
  · intro e he
    simp at he
  · intro i _
    exact ⟨rfl, rfl⟩

/-- Claim C8, amended: `fmm` checks no preconditions — an out-of-range
seed is silently indexed (see the C8 counterexample), dimensions are never
compared, and an empty seed list is accepted.  What does hold: when every
seed lies in bounds and the grid is non-degenerate, the entire run touches
only the row-major region `[0, cols*rows)`; every address outside it keeps
its initial sentinel distance and Far status. -/
theorem in_bounds_seeds_stay_confined (p : FmmParams) (seeds : List (Int × Int))
    (k : Int) (n : ℕ) (i : Int) (hc : 0 < p.cols)
    (hseeds : ∀ sd ∈ seeds, 0 ≤ sd.1 ∧ sd.1 < p.cols ∧ 0 ≤ sd.2 ∧ sd.2 < p.rows)
    (hi : i < 0 ∨ p.cols * p.rows ≤ i) :
    (fmmLoop p n (initState p seeds k)).dist i = INF ∧
    (fmmLoop p n (initState p seeds k)).status i = 0 :=
  (fmmLoop_memInv p hc n (initState p seeds k)
    (initState_memInv p hc seeds k hseeds)).2 i hi

/-! ### Claims C3, C4, C7, C10: the postprocessing passes -/

lemma foldl_max_le (q : ℚ) : ∀ (l : List ℚ) (a : ℚ), a ≤ q → (∀ x ∈ l, x ≤ q) →
    l.foldl max a ≤ q := by
  intro l
  induction l with
  | nil => intro a ha _; exact ha
  | cons c cs ih =>
    intro a ha hl
    rw [List.foldl_cons]
    exact ih (max a c) (max_le ha (hl c (List.mem_cons_self c cs)))
      (fun x hx => hl x (List.mem_cons_of_mem c hx))

lemma foldl_max_init_mono : ∀ (l : List ℚ) (a b : ℚ), a ≤ b →
    l.foldl max a ≤ l.foldl max b := by
  intro l
  induction l with
  | nil => intro a b h; exact h
  | cons c cs ih =>
    intro a b h
    rw [List.foldl_cons, List.foldl_cons]
    exact ih (max a c) (max b c) (max_le_max h (le_refl c))

lemma le_foldl_max_init : ∀ (l : List ℚ) (a : ℚ), a ≤ l.foldl max a := by
  intro l
  induction l with
  | nil => intro a; exact le_refl a
  | cons c cs ih =>
    intro a
    rw [List.foldl_cons]
    exact le_trans (le_max_left a c) (ih (max a c))

lemma mem_le_foldl_max : ∀ (l : List ℚ) (a x : ℚ), x ∈ l → x ≤ l.foldl max a := by
  intro l
  induction l with
  | nil => intro a x hx; simp at hx
  | cons c cs ih =>
    intro a x hx
    rw [List.foldl_cons]
    rcases List.mem_cons.mp hx with rfl | hx2
    · exact le_trans (le_max_right a x) (le_foldl_max_init cs (max a x))
    · exact ih (max a c) x hx2

lemma max_div_pos (a b m : ℚ) (hm : 0 < m) : max (a / m) (b / m) = max a b / m := by
  rcases le_total a b with h | h
  · rw [max_eq_right h, max_eq_right ((div_le_div_iff_of_pos_right hm).mpr h)]
  · rw [max_eq_left h, max_eq_left ((div_le_div_iff_of_pos_right hm).mpr h)]

lemma foldl_max_div (m : ℚ) (hm : 0 < m) : ∀ (l : List ℚ) (a : ℚ),
    (l.map (fun d => d / m)).foldl max (a / m) = (l.foldl max a) / m := by
  intro l
  induction l with
  | nil => intro a; rfl
  | cons c cs ih =>
    intro a
    rw [List.map_cons, List.foldl_cons, List.foldl_cons, max_div_pos a c m hm]
    exact ih (max a c)

lemma maxvalOf_map_div (a : ℚ) (t : List ℚ) (m : ℚ) (hm : 0 < m) :
    maxvalOf ((a :: t).map (fun d => d / m)) = maxvalOf (a :: t) / m := by
  unfold maxvalOf
  simp only [List.map_cons, List.headD_cons]
  exact foldl_max_div m hm (a :: t) a

lemma maxvalOf_normalizeStep (l : List ℚ) (hne : l ≠ []) (hm : 0 < maxvalOf l) :
    maxvalOf (normalizeStep l) = 1 := by
  cases l with
  | nil => exact absurd rfl hne
  | cons a t =>
    rw [show normalizeStep (a :: t) = (a :: t).map (fun d => d / maxvalOf (a :: t)) from rfl,
      maxvalOf_map_div a t _ hm]
    exact div_self (ne_of_gt hm)

lemma getD_map_lt (f : ℚ → ℚ) : ∀ (l : List ℚ) (i : ℕ), i < l.length →
    (l.map f).getD i 0 = f (l.getD i 0) := by
  intro l
  induction l with
  | nil => intro i hi; simp at hi
  | cons c cs ih =>
    intro i hi
    cases i with
    | zero => simp
    | succ i =>
      simp only [List.map_cons, List.getD_cons_succ]
      exact ih i (by simpa using hi)

lemma getD_mem_of_lt : ∀ (l : List ℚ) (i : ℕ), i < l.length → l.getD i 0 ∈ l := by
  intro l
  induction l with
  | nil => intro i hi; simp at hi
  | cons c cs ih =>
    intro i hi
    cases i with
    | zero => simp
    | succ i =>
      simp only [List.getD_cons_succ]
      exact List.mem_cons_of_mem c (ih i (by simpa using hi))

lemma length_normalizeStep (l : List ℚ) : (normalizeStep l).length = l.length := by
  simp [normalizeStep]

lemma length_fmmGrid (s : FmmState) (area : ℕ) : (fmmGrid s area).length = area := by
  simp [fmmGrid, Function.comp]
  rw [show (List.length ∘ fun a : ℕ => ([((a : ℕ) : Int)] : List Int)) = fun _ => 1 from
    funext (fun a => rfl)]
  rw [List.map_const', List.sum_replicate, List.length_range]
  simp

/-- Claim C3, amended: the normalization pass has no branch for the
degenerate cases — it divides every cell unconditionally by the grid
maximum (see the C3 counterexample for the sentinel case).  Over exact
arithmetic, when every distance is bounded by the sentinel and some cell is
still at the sentinel (nothing beyond the seeds was reached), the maximum
is the sentinel, sentinel cells are mapped to 1 — not kept at the sentinel
— and zero-distance cells to 0. -/
theorem sentinel_cells_normalize_to_one (l : List ℚ) (i j : ℕ)
    (hb : ∀ d ∈ l, d ≤ INF) (hi : i < l.length) (hvi : l.getD i 0 = INF)
    (hj : j < l.length) (hvj : l.getD j 0 = 0) :
    (normalizeStep l).getD i 0 = 1 ∧ (normalizeStep l).getD j 0 = 0 := by
  have hne : l ≠ [] := by
    intro hcon
    rw [hcon] at hi
    simp at hi
  have hmem : INF ∈ l := hvi ▸ getD_mem_of_lt l i hi
  have hup : maxvalOf l ≤ INF := by
    unfold maxvalOf
    apply foldl_max_le
    · cases l with
      | nil => exact absurd rfl hne
      | cons a t =>
        simp only [List.headD_cons]
        exact hb a (List.mem_cons_self a t)
    · exact hb
  have hlow : INF ≤ maxvalOf l := mem_le_foldl_max l _ INF hmem
  have hmax : maxvalOf l = INF := le_antisymm hup hlow
  constructor
  · rw [show (normalizeStep l) = l.map (fun d => d / maxvalOf l) from rfl,
      getD_map_lt _ l i hi, hvi, hmax]
    exact div_self (by norm_num [INF])
  · rw [show (normalizeStep l) = l.map (fun d => d / maxvalOf l) from rfl,
      getD_map_lt _ l j hj, hvj]
    exact zero_div _

/-- Claim C4, amended: with `normalize_output` on, the divisor is the
whole-grid maximum — the sentinel included, not the maximum finite distance
(see the C4 counterexample).  In the non-degenerate direction of the claim:
when the threshold is not below the sentinel (no binarization) and the grid
maximum is positive, the maximum value of the normalized output equals
1. -/
theorem normalized_output_max_is_one (rows cols : Int) (image : List ℚ)
    (seeds : List (Int × Int)) (wm : WeightMap) (tau : ℚ) (k : Int)
    (hne : fmmGrid (fmmRunState rows cols image seeds wm tau k) (rows * cols).toNat ≠ [])
    (htau : ¬ tau < INF)
    (hm : 0 < maxvalOf (fmmGrid (fmmRunState rows cols image seeds wm tau k) (rows * cols).toNat)) :
    maxvalOf (fmm rows cols image seeds wm tau true k) = 1 := by
  simp only [fmm, if_neg htau, eq_self_iff_true, if_true]
  exact maxvalOf_normalizeStep _ hne hm

/-- Claim C7, confirmed: when the segmentation threshold `τ` is below the
sentinel, every cell of the final output is exactly the indicator of its
pre-threshold value being `≤ τ`, where the pre-threshold value is the
post-normalization distance when normalization is enabled and the raw
distance otherwise — the binarization is applied strictly after the
normalization pass. -/
theorem mask_is_indicator_of_prethreshold (rows cols : Int) (image : List ℚ)
    (seeds : List (Int × Int)) (wm : WeightMap) (tau : ℚ) (nrm : Bool) (k : Int)
    (i : ℕ) (htau : tau < INF) (hi : i < (rows * cols).toNat) :
    (fmm rows cols image seeds wm tau nrm k).getD i 0 =
      (if (cond nrm
          (normalizeStep (fmmGrid (fmmRunState rows cols image seeds wm tau k) (rows * cols).toNat))
          (fmmGrid (fmmRunState rows cols image seeds wm tau k) (rows * cols).toNat)).getD i 0 ≤ tau
      then 1 else 0) := by
  cases nrm with
  | true =>
    simp only [fmm, Bool.cond_true, eq_self_iff_true, if_true]
    rw [if_pos htau]
    unfold thresholdStep
    rw [getD_map_lt _ _ i (by rw [length_normalizeStep, length_fmmGrid]; exact hi)]
  | false =>
    simp only [fmm, Bool.cond_false, Bool.false_eq_true, if_false]
    rw [if_pos htau]
    unfold thresholdStep
    rw [getD_map_lt _ _ i (by rw [length_fmmGrid]; exact hi)]

/-- Claim C10, confirmed: with normalization and a finite threshold `τ`
enabled in one call, the final mask thresholds the post-normalization
distances at `τ`, while inside the loop a popped cell is pruned — dropped
with no finalization and no neighbor update — whenever its raw
un-normalized distance exceeds the same `τ`: the single parameter is
interpreted at two different scales within one run. -/
theorem same_threshold_used_at_two_scales (rows cols : Int) (image : List ℚ)
    (seeds : List (Int × Int)) (wm : WeightMap) (tau : ℚ) (k : Int)
    (htau : tau < INF) :
    (fmm rows cols image seeds wm tau true k =
      thresholdStep tau (normalizeStep
        (fmmGrid (fmmRunState rows cols image seeds wm tau k) (rows * cols).toNat)) ∧
    ∀ (q : FmmParams) (s : FmmState) (u : QueueCell) (rest : List QueueCell),
      q.tau = tau → popMin s.que = some (u, rest) → tau < s.dist u.id →
      fmmIter q s = { s with que := rest }) := by
  constructor
  · simp only [fmm, eq_self_iff_true, if_true]
    rw [if_pos htau]
  · intro q s u rest hq hpop hlt
    unfold fmmIter
    rw [hpop]
    dsimp only
    rw [if_pos]
    right
    rw [hq]
    exact hlt

/-! ### Witnesses -/

/-- Witness for the C1 theorem at a concrete 1×2 grid: a Far cell with all
neighbors at the sentinel receives the specification estimate. -/
theorem updateCell_matches_eikonal_specification_witness :
    (0 : Int) < 2 ∧
    (updateCell (⟨1, 2, readMem [1, 1], INF⟩ : FmmParams) ⟨0, 0, 0⟩
        ⟨fun _ => INF, fun _ => 0, [], -1, []⟩).dist 0 =
      min INF (eikonalSpecification INF INF INF INF 1) := by
  have h := updateCell_matches_eikonal_specification (⟨1, 2, readMem [1, 1], INF⟩ : FmmParams)
    ⟨fun _ => INF, fun _ => 0, [], -1, []⟩ ⟨0, 0, 0⟩ 0 0
    (by norm_num) (le_refl 0) (by norm_num) (le_refl 0) (by norm_num)
    (by norm_num) rfl (by decide)
  refine ⟨by norm_num, ?_⟩
  simpa [readMem] using h

/-- Witness for the C2 amended theorem: a budget of 5 bounds the trace of a
1×1 run, and one concrete non-trivial step decrements the budget. -/
theorem budget_spent_per_pop_bounds_finalizations_witness :
    (0 : Int) ≤ 5 ∧
    (((fmmLoop (⟨1, 1, readMem [1], INF⟩ : FmmParams) 3
        (initState (⟨1, 1, readMem [1], INF⟩ : FmmParams) [(0, 0)] 5)).trace.length : Int) ≤ 5) ∧
    (fmmStep (⟨1, 1, readMem [1], INF⟩ : FmmParams)
        ⟨fun _ => INF, fun _ => 0, [⟨0, 0, 0⟩], 7, []⟩).budget = 7 - 1 := by
  refine ⟨by norm_num, ?_, ?_⟩
  · exact (budget_spent_per_pop_bounds_finalizations
      (⟨1, 1, readMem [1], INF⟩ : FmmParams) [(0, 0)] 5 3 (by norm_num)).1
  · exact (budget_spent_per_pop_bounds_finalizations
      (⟨1, 1, readMem [1], INF⟩ : FmmParams) [(0, 0)] 5 3 (by norm_num)).2
      ⟨fun _ => INF, fun _ => 0, [⟨0, 0, 0⟩], 7, []⟩ (by simp) (by norm_num)

/-- Witness for the C3 amended theorem on the concrete grid `[0, 1, INF]`. -/
theorem sentinel_cells_normalize_to_one_witness :
    2 < ([0, 1, INF] : List ℚ).length ∧
    ((normalizeStep [0, 1, INF]).getD 2 0 = 1 ∧ (normalizeStep [0, 1, INF]).getD 0 0 = 0) := by
  refine ⟨by norm_num, sentinel_cells_normalize_to_one [0, 1, INF] 2 0
    (by norm_num [INF]) (by norm_num) rfl (by norm_num) rfl⟩

set_option maxHeartbeats 1000000 in
/-- Witness for the C4 amended theorem: unit cost on a 1×2 grid with an
unlimited budget and an infinite threshold reaches one non-seed cell, and the
normalized output has maximum 1. -/
theorem normalized_output_max_is_one_witness :
    ¬ INF < INF ∧ maxvalOf (fmm 1 2 [1, 1] [(0, 0)] .identity INF true (-1)) = 1 := by
  have eH0 : initState (⟨1, 2, readMem [1, 1], INF⟩ : FmmParams) [(0, 0)] (-1) =
      ⟨Function.update (fun _ => INF) 0 (0),
      fun _ => 0,
      [⟨0, 0, 0⟩], -1, []⟩ := by
    norm_num [initState, seedPush]
  have eH1 : fmmStep (⟨1, 2, readMem [1, 1], INF⟩ : FmmParams)
      ⟨Function.update (fun _ => INF) 0 (0),
      fun _ => 0,
      [⟨0, 0, 0⟩], -1, []⟩ =
      ⟨Function.update (Function.update (fun _ => INF) 0 (0)) 1 (1),
      Function.update (Function.update (fun _ => 0) 0 255) 1 1,
      [⟨1, 1, 1⟩], -2, [(0, 0)]⟩ := by
    norm_num [fmmStep, fmmIter, updateCell, popMin, eikonalEstimate, readMem, INF,
    CELL_VISITED, CELL_NOT_VISITED, Function.update, max_def, min_def,
    ratSqrt49, ratSqrt49Q, ratSqrt0, List.cons_ne_nil]
  have eH2 : fmmStep (⟨1, 2, readMem [1, 1], INF⟩ : FmmParams)
      ⟨Function.update (Function.update (fun _ => INF) 0 (0)) 1 (1),
      Function.update (Function.update (fun _ => 0) 0 255) 1 1,
      [⟨1, 1, 1⟩], -2, [(0, 0)]⟩ =
      ⟨Function.update (Function.update (fun _ => INF) 0 (0)) 1 (1),
      Function.update (Function.update (Function.update (fun _ => 0) 0 255) 1 1) 1 255,
      [], -3, [(0, 0), (1, 1)]⟩ := by
    norm_num [fmmStep, fmmIter, updateCell, popMin, eikonalEstimate, readMem, INF,
    CELL_VISITED, CELL_NOT_VISITED, Function.update, max_def, min_def,
    ratSqrt49, ratSqrt49Q, ratSqrt0, List.cons_ne_nil]
  have eH3 : fmmStep (⟨1, 2, readMem [1, 1], INF⟩ : FmmParams)
      ⟨Function.update (Function.update (fun _ => INF) 0 (0)) 1 (1),
      Function.update (Function.update (Function.update (fun _ => 0) 0 255) 1 1) 1 255,
      [], -3, [(0, 0), (1, 1)]⟩ =
      ⟨Function.update (Function.update (fun _ => INF) 0 (0)) 1 (1),
      Function.update (Function.update (Function.update (fun _ => 0) 0 255) 1 1) 1 255,
      [], -3, [(0, 0), (1, 1)]⟩ := by
    norm_num [fmmStep, fmmIter, updateCell, popMin, eikonalEstimate, readMem, INF,
    CELL_VISITED, CELL_NOT_VISITED, Function.update, max_def, min_def,
    ratSqrt49, ratSqrt49Q, ratSqrt0, List.cons_ne_nil]
  have eH4 : fmmStep (⟨1, 2, readMem [1, 1], INF⟩ : FmmParams)
      ⟨Function.update (Function.update (fun _ => INF) 0 (0)) 1 (1),
      Function.update (Function.update (Function.update (fun _ => 0) 0 255) 1 1) 1 255,
      [], -3, [(0, 0), (1, 1)]⟩ =
      ⟨Function.update (Function.update (fun _ => INF) 0 (0)) 1 (1),
      Function.update (Function.update (Function.update (fun _ => 0) 0 255) 1 1) 1 255,
      [], -3, [(0, 0), (1, 1)]⟩ := by
    norm_num [fmmStep, fmmIter, updateCell, popMin, eikonalEstimate, readMem, INF,
    CELL_VISITED, CELL_NOT_VISITED, Function.update, max_def, min_def,
    ratSqrt49, ratSqrt49Q, ratSqrt0, List.cons_ne_nil]
  have hrunH : fmmRunState 1 2 [1, 1] [(0, 0)] .identity INF (-1) =
      ⟨Function.update (Function.update (fun _ => INF) 0 (0)) 1 (1),
      Function.update (Function.update (Function.update (fun _ => 0) 0 255) 1 1) 1 255,
      [], -3, [(0, 0), (1, 1)]⟩ := by
    simp only [fmmRunState, buildWeights,
      show ([(0, 0)] : List (Int × Int)).length + ((1 : Int) * 2).toNat + 1 = 4 from rfl]
    rw [eH0]
    simp only [fmmLoop]
    rw [eH1, eH2, eH3, eH4]
  refine ⟨by norm_num, normalized_output_max_is_one 1 2 [1, 1] [(0, 0)] .identity INF (-1)
    ?_ (by norm_num) ?_⟩
  · rw [hrunH]
    norm_num [fmmGrid, Function.update, INF, show ((1 : Int) * 2).toNat = 2 from rfl,
      show Int.toNat 2 = 2 from rfl, show List.range 2 = [0, 1] from rfl]
    exact List.cons_ne_nil 0 [1]
  · rw [hrunH]
    norm_num [fmmGrid, maxvalOf, Function.update, INF, max_def,
      show ((1 : Int) * 2).toNat = 2 from rfl, show Int.toNat 2 = 2 from rfl,
      show List.range 2 = [0, 1] from rfl]

set_option maxHeartbeats 1000000 in
/-- Witness for the C5 amended theorem: the single finalization of a 1×1 run
records `(0, 0)`, whose recorded distance is bounded by its pop key. -/
theorem finalized_distance_le_pop_key_witness :
    ((0 : ℚ), (0 : ℚ)) ∈ (fmmLoop (⟨1, 1, readMem [1], INF⟩ : FmmParams) 3
      (initState (⟨1, 1, readMem [1], INF⟩ : FmmParams) [(0, 0)] (-1))).trace ∧
    ((0 : ℚ), (0 : ℚ)).2 ≤ ((0 : ℚ), (0 : ℚ)).1 := by
  have eI0 : initState (⟨1, 1, readMem [1], INF⟩ : FmmParams) [(0, 0)] (-1) =
      ⟨Function.update (fun _ => INF) 0 (0),
      fun _ => 0,
      [⟨0, 0, 0⟩], -1, []⟩ := by
    norm_num [initState, seedPush]
  have eI1 : fmmStep (⟨1, 1, readMem [1], INF⟩ : FmmParams)
      ⟨Function.update (fun _ => INF) 0 (0),
      fun _ => 0,
      [⟨0, 0, 0⟩], -1, []⟩ =
      ⟨Function.update (fun _ => INF) 0 (0),
      Function.update (fun _ => 0) 0 255,
      [], -2, [(0, 0)]⟩ := by
    norm_num [fmmStep, fmmIter, updateCell, popMin, eikonalEstimate, readMem, INF,
    CELL_VISITED, CELL_NOT_VISITED, Function.update, max_def, min_def,
    ratSqrt49, ratSqrt49Q, ratSqrt0, List.cons_ne_nil]
  have eI2 : fmmStep (⟨1, 1, readMem [1], INF⟩ : FmmParams)
      ⟨Function.update (fun _ => INF) 0 (0),
      Function.update (fun _ => 0) 0 255,
      [], -2, [(0, 0)]⟩ =
      ⟨Function.update (fun _ => INF) 0 (0),
      Function.update (fun _ => 0) 0 255,
      [], -2, [(0, 0)]⟩ := by
    norm_num [fmmStep, fmmIter, updateCell, popMin, eikonalEstimate, readMem, INF,
    CELL_VISITED, CELL_NOT_VISITED, Function.update, max_def, min_def,
    ratSqrt49, ratSqrt49Q, ratSqrt0, List.cons_ne_nil]
  have eI3 : fmmStep (⟨1, 1, readMem [1], INF⟩ : FmmParams)
      ⟨Function.update (fun _ => INF) 0 (0),
      Function.update (fun _ => 0) 0 255,
      [], -2, [(0, 0)]⟩ =
      ⟨Function.update (fun _ => INF) 0 (0),
      Function.update (fun _ => 0) 0 255,
      [], -2, [(0, 0)]⟩ := by
    norm_num [fmmStep, fmmIter, updateCell, popMin, eikonalEstimate, readMem, INF,
    CELL_VISITED, CELL_NOT_VISITED, Function.update, max_def, min_def,
    ratSqrt49, ratSqrt49Q, ratSqrt0, List.cons_ne_nil]
  have hrunI : fmmRunState 1 1 [1] [(0, 0)] .identity INF (-1) =
      ⟨Function.update (fun _ => INF) 0 (0),
      Function.update (fun _ => 0) 0 255,
      [], -2, [(0, 0)]⟩ := by
    simp only [fmmRunState, buildWeights,
      show ([(0, 0)] : List (Int × Int)).length + ((1 : Int) * 1).toNat + 1 = 3 from rfl]
    rw [eI0]
    simp only [fmmLoop]
    rw [eI1, eI2, eI3]
  have hloop : fmmLoop (⟨1, 1, readMem [1], INF⟩ : FmmParams) 3
      (initState (⟨1, 1, readMem [1], INF⟩ : FmmParams) [(0, 0)] (-1)) =
      ⟨Function.update (fun _ => INF) 0 (0),
      Function.update (fun _ => 0) 0 255,
      [], -2, [(0, 0)]⟩ := by
    rw [eI0]
    simp only [fmmLoop]
    rw [eI1, eI2, eI3]
  have hmem : ((0 : ℚ), (0 : ℚ)) ∈ (fmmLoop (⟨1, 1, readMem [1], INF⟩ : FmmParams) 3
      (initState (⟨1, 1, readMem [1], INF⟩ : FmmParams) [(0, 0)] (-1))).trace := by
    rw [hloop]
    simp
  exact ⟨hmem, finalized_distance_le_pop_key (⟨1, 1, readMem [1], INF⟩ : FmmParams)
    [(0, 0)] (-1) 3 ((0 : ℚ), (0 : ℚ)) hmem⟩

/-- Witness for the C7 theorem on a concrete 1×1 call with a finite
threshold and normalization off. -/
theorem mask_is_indicator_of_prethreshold_witness :
    (1 / 2 : ℚ) < INF ∧
    (fmm 1 1 [1] [(0, 0)] .identity (1 / 2) false (-1)).getD 0 0 =
      (if (cond false
          (normalizeStep (fmmGrid (fmmRunState 1 1 [1] [(0, 0)] .identity (1 / 2) (-1))
            ((1 : Int) * 1).toNat))
          (fmmGrid (fmmRunState 1 1 [1] [(0, 0)] .identity (1 / 2) (-1))
            ((1 : Int) * 1).toNat)).getD 0 0 ≤ 1 / 2
      then 1 else 0) :=
  ⟨by norm_num [INF],
    mask_is_indicator_of_prethreshold 1 1 [1] [(0, 0)] .identity (1 / 2) false (-1) 0
      (by norm_num [INF]) (by decide)⟩

/-- Witness for the C8 amended theorem: a 1×1 run from the in-bounds seed
`(0, 0)` leaves the out-of-range address 5 untouched. -/
theorem in_bounds_seeds_stay_confined_witness :
    (0 : Int) < 1 ∧ ((5 : Int) < 0 ∨ (1 : Int) * 1 ≤ 5) ∧
    ((fmmLoop (⟨1, 1, readMem [1], INF⟩ : FmmParams) 0
        (initState (⟨1, 1, readMem [1], INF⟩ : FmmParams) [(0, 0)] (-1))).dist 5 = INF ∧
      (fmmLoop (⟨1, 1, readMem [1], INF⟩ : FmmParams) 0
        (initState (⟨1, 1, readMem [1], INF⟩ : FmmParams) [(0, 0)] (-1))).status 5 = 0) :=
  ⟨by norm_num, by norm_num,
    in_bounds_seeds_stay_confined (⟨1, 1, readMem [1], INF⟩ : FmmParams) [(0, 0)] (-1) 0 5
      (by norm_num) (by decide) (by norm_num)⟩

/-- Witness for the C10 theorem: on a 1×1 call with threshold 1/2 the mask
equality holds, and a concrete pop whose raw distance 3 exceeds 1/2 is pruned
without any write. -/
theorem same_threshold_used_at_two_scales_witness :
    (1 / 2 : ℚ) < INF ∧
    (fmm 1 1 [1] [(0, 0)] .identity (1 / 2) true (-1) =
      thresholdStep (1 / 2) (normalizeStep
        (fmmGrid (fmmRunState 1 1 [1] [(0, 0)] .identity (1 / 2) (-1)) ((1 : Int) * 1).toNat))) ∧
    fmmIter (⟨1, 1, readMem [1], 1 / 2⟩ : FmmParams)
        ⟨fun _ => (3 : ℚ), fun _ => 0, [⟨0, 0, 5⟩], -1, []⟩ =
      { (⟨fun _ => (3 : ℚ), fun _ => 0, [⟨0, 0, 5⟩], -1, []⟩ : FmmState) with que := [] } := by
  have h := same_threshold_used_at_two_scales 1 1 [1] [(0, 0)] .identity (1 / 2) (-1)
    (by norm_num [INF])
  exact ⟨by norm_num [INF], h.1, h.2 (⟨1, 1, readMem [1], 1 / 2⟩ : FmmParams)
    ⟨fun _ => (3 : ℚ), fun _ => 0, [⟨0, 0, 5⟩], -1, []⟩ ⟨0, 0, 5⟩ [] rfl rfl (by norm_num)⟩

end FMM
